import Mathlib

/-!
Verification development for the Mewo audio engine core.

The Rust sources are shallowly embedded in Lean 4.  Machine floats (`f32`,
`f64`) are idealised as elements of a linear ordered field (`ℚ` where
evaluation is wanted, `ℝ` where the source computes transcendental
constants such as `exp`, `cos`, `10^x`); `u64` counters carry their
wrap-around (`% 2^64`) respectively saturation explicitly.  Stateful Rust
methods become pure functions from a state to a state (paired with their
output); the lock-free atomics of the real program are read and written by
exactly one logical step at a time in every property below, so a plain
record faithfully models the `Clock` control block.
-/

namespace Mewo

/-- Playback state of the engine clock (`clock/mod.rs`, `PlaybackState`). -/
inductive PlaybackState
  | Stopped
  | Playing
  | Paused
  deriving DecidableEq, Repr

/-- Wrap-around modulus of the `u64` atomics. -/
def u64Mod : ℕ := 2 ^ 64

/-- The shared control block (`clock/mod.rs`, `Clock`).  `sample_pos`,
`sample_rate` are `AtomicU64`, `channels` an `AtomicU8`, `state` an
`AtomicU8` holding a `PlaybackState`, `clear_buffer` an `AtomicBool`.
The `eos` flag is not present in `clock/mod.rs` even though
`cpal_backend.rs` calls `clock.is_eos()`; it is modelled from the spec
(see `Clock.is_eos`). -/
structure Clock where
  sample_pos : ℕ
  sample_rate : ℕ
  channels : ℕ
  state : PlaybackState
  clear_buffer : Bool
  eos : Bool
  deriving DecidableEq, Repr

/-- `Clock::new(sample_rate)`: position 0, two channels, `Stopped`,
clear flag down.  The modelled `eos` flag starts down. -/
def Clock.new (sample_rate : ℕ) : Clock :=
  { sample_pos := 0
    sample_rate := sample_rate
    channels := 2
    state := PlaybackState.Stopped
    clear_buffer := false
    eos := false }

/-- `Clock::set_sample_pos` (a plain atomic store of the given `u64`). -/
def Clock.set_sample_pos (c : Clock) (pos : ℕ) : Clock :=
  { c with sample_pos := pos }

/-- `Clock::increment_samples`: `fetch_add` (wrapping on `u64`) guarded by
`state == Playing`. -/
def Clock.increment_samples (c : Clock) (amount : ℕ) : Clock :=
  if c.state = PlaybackState.Playing then
    { c with sample_pos := (c.sample_pos + amount) % u64Mod }
  else c

/-- `Clock::set_state`. -/
def Clock.set_state (c : Clock) (s : PlaybackState) : Clock :=
  { c with state := s }

/-- `Clock::set_sample_rate`. -/
def Clock.set_sample_rate (c : Clock) (rate : ℕ) : Clock :=
  { c with sample_rate := rate }

/-- `Clock::set_channels`: the `u32` argument is stored in an `AtomicU8`,
so it truncates mod 256 (`channels as u8`). -/
def Clock.set_channels (c : Clock) (channels : ℕ) : Clock :=
  { c with channels := channels % 256 }

/-- `Clock::signal_clear_buffer`. -/
def Clock.signal_clear_buffer (c : Clock) : Clock :=
  { c with clear_buffer := true }

/-- `Clock::should_clear_buffer`. -/
def Clock.should_clear_buffer (c : Clock) : Bool :=
  c.clear_buffer

/-- `Clock::reset_clear_buffer`. -/
def Clock.reset_clear_buffer (c : Clock) : Clock :=
  { c with clear_buffer := false }

/-- Modelled from the spec: `Clock.is_eos`, the read accessor of the
end-of-stream flag.  `cpal_backend.rs` calls `clock.is_eos()` but
`clock/mod.rs` declares no such field or method; the spec's data model
gives the Clock an `eos` flag read by the output callback. -/
def Clock.is_eos (c : Clock) : Bool :=
  c.eos

/-- Modelled from the spec: the write accessor of the end-of-stream flag
("the worker [is required] to set `Clock.eos=true` immediately before
exiting").  Nothing in `src/` calls it. -/
def Clock.set_eos (c : Clock) (v : Bool) : Clock :=
  { c with eos := v }

section Callback

variable {α : Type} [LinearOrderedField α] {β : Type}

/-- Body of the output callback after the clear-buffer check
(`cpal_backend.rs`, `process_audio` from the state test onward): silence
when not `Playing`; otherwise pop into the buffer (the typed pop adapter
`pop_slice_f32` pops one `f32` at a time and converts, so it retrieves
`min n ring.length` samples in order), fill the tail with silence,
advance the clock, and run the EOS check. -/
def process_audio_core (conv : α → β) (n : ℕ) (ring : List α) (c : Clock) :
    List β × List α × Clock :=
  if c.state ≠ PlaybackState.Playing then
    (List.replicate n (conv 0), ring, c)
  else
    let samples_read := min n ring.length
    let out := (ring.take samples_read).map conv ++
      List.replicate (n - samples_read) (conv 0)
    let c2 := c.increment_samples samples_read
    let c3 := if samples_read = 0 ∧ c2.is_eos then
        c2.set_state PlaybackState.Stopped
      else c2
    (out, ring.drop samples_read, c3)

/-- The real-time output callback (`cpal_backend.rs`, `process_audio`),
for a device buffer of length `n` over device sample type `β` with
`T::from_sample` abstracted as `conv` (silence is `conv 0`).  The ring is
the list of samples the consumer endpoint can pop, oldest first; the
clear-buffer flag drains it before anything else happens.  Returns the
device buffer contents, the remaining ring and the updated clock. -/
def process_audio (conv : α → β) (n : ℕ) (ring : List α) (c : Clock) :
    List β × List α × Clock :=
  if c.should_clear_buffer then
    process_audio_core conv n [] c.reset_clear_buffer
  else
    process_audio_core conv n ring c

lemma process_audio_core_not_playing (conv : α → β) (n : ℕ) (ring : List α)
    (c : Clock) (h : c.state ≠ PlaybackState.Playing) :
    process_audio_core conv n ring c = (List.replicate n (conv 0), ring, c) := by
  simp [process_audio_core, h]

lemma process_audio_core_playing (conv : α → β) (n : ℕ) (ring : List α)
    (c : Clock) (h : c.state = PlaybackState.Playing) :
    process_audio_core conv n ring c =
      ((ring.take (min n ring.length)).map conv ++
        List.replicate (n - min n ring.length) (conv 0),
       ring.drop (min n ring.length),
       if min n ring.length = 0 ∧ c.eos then
         ((c.increment_samples (min n ring.length)).set_state PlaybackState.Stopped)
       else c.increment_samples (min n ring.length)) := by
  simp only [process_audio_core, h, ne_eq, not_true_eq_false, if_false, ite_false]
  have heos : (c.increment_samples (min n ring.length)).is_eos = c.eos := by
    unfold Clock.increment_samples Clock.is_eos
    split <;> rfl
  simp [heos]

lemma process_audio_core_length (conv : α → β) (n : ℕ) (ring : List α)
    (c : Clock) : (process_audio_core conv n ring c).1.length = n := by
  by_cases h : c.state = PlaybackState.Playing
  · rw [process_audio_core_playing conv n ring c h]
    simp
  · rw [process_audio_core_not_playing conv n ring c h]
    simp

lemma increment_samples_sample_pos (c : Clock) (k : ℕ)
    (h : c.state = PlaybackState.Playing) :
    (c.increment_samples k).sample_pos = (c.sample_pos + k) % u64Mod := by
  simp [Clock.increment_samples, h]

lemma increment_samples_clear_buffer (c : Clock) (k : ℕ) :
    (c.increment_samples k).clear_buffer = c.clear_buffer := by
  unfold Clock.increment_samples
  split <;> rfl

end Callback

section CallbackClaims

variable {α : Type} [LinearOrderedField α] {β : Type}

/-- C3: every invocation of the output callback on a device buffer of
length `n` writes all `n` positions: all silence when the clock is not
`Playing`; otherwise the first `samples_read` positions get the popped
samples (converted), the tail is silence, `samples_read ≤ n`, and the
sample position advances by exactly `samples_read` — in particular an
underrun (pop returning 0) does not advance it. -/
theorem callback_fills_buffer_exactly (conv : α → β) (n : ℕ) (ring : List α)
    (c : Clock) :
    (process_audio conv n ring c).1.length = n ∧
    (c.state ≠ PlaybackState.Playing →
      (process_audio conv n ring c).1 = List.replicate n (conv 0)) ∧
    (c.state = PlaybackState.Playing →
      min n (if c.clear_buffer then ([] : List α) else ring).length ≤ n ∧
      (process_audio conv n ring c).1 =
        ((if c.clear_buffer then ([] : List α) else ring).take
            (min n (if c.clear_buffer then ([] : List α) else ring).length)).map conv ++
          List.replicate
            (n - min n (if c.clear_buffer then ([] : List α) else ring).length)
            (conv 0) ∧
      (process_audio conv n ring c).2.2.sample_pos =
        (c.sample_pos +
          min n (if c.clear_buffer then ([] : List α) else ring).length) % u64Mod) ∧
    (c.state = PlaybackState.Playing →
      (if c.clear_buffer then ([] : List α) else ring) = [] →
      c.sample_pos < u64Mod →
      (process_audio conv n ring c).2.2.sample_pos = c.sample_pos) := by
  have hring : ∀ r1 : List α, ∀ c1 : Clock, c1.state = c.state →
      c1.sample_pos = c.sample_pos →
      (process_audio_core conv n r1 c1).1.length = n ∧
      (c.state ≠ PlaybackState.Playing →
        (process_audio_core conv n r1 c1).1 = List.replicate n (conv 0)) ∧
      (c.state = PlaybackState.Playing →
        min n r1.length ≤ n ∧
        (process_audio_core conv n r1 c1).1 =
          (r1.take (min n r1.length)).map conv ++
            List.replicate (n - min n r1.length) (conv 0) ∧
        (process_audio_core conv n r1 c1).2.2.sample_pos =
          (c.sample_pos + min n r1.length) % u64Mod) ∧
      (c.state = PlaybackState.Playing → r1 = [] → c.sample_pos < u64Mod →
        (process_audio_core conv n r1 c1).2.2.sample_pos = c.sample_pos) := by
    intro r1 c1 hst hpos
    refine ⟨process_audio_core_length conv n r1 c1, ?_, ?_, ?_⟩
    · intro h
      rw [process_audio_core_not_playing conv n r1 c1 (hst ▸ h)]
    · intro h
      rw [process_audio_core_playing conv n r1 c1 (hst ▸ h)]
      refine ⟨Nat.min_le_left _ _, rfl, ?_⟩
      have hp := increment_samples_sample_pos c1 (min n r1.length) (hst ▸ h)
      split <;> simp [Clock.set_state, hp, hpos]
    · intro h hr hlt
      subst hr
      rw [process_audio_core_playing conv n [] c1 (hst ▸ h)]
      have hone : (c1.increment_samples 0).sample_pos = c.sample_pos := by
        have hc1 : c1.state = PlaybackState.Playing := hst ▸ h
        simp [Clock.increment_samples, hc1, hpos, Nat.mod_eq_of_lt hlt]
      split <;> simp [Clock.set_state, hone]
  by_cases hcb : c.clear_buffer
  · have hpa : process_audio conv n ring c =
        process_audio_core conv n [] c.reset_clear_buffer := by
      unfold process_audio
      simp [Clock.should_clear_buffer, hcb]
    rw [hpa]
    simpa [hcb] using hring [] c.reset_clear_buffer rfl rfl
  · have hpa : process_audio conv n ring c = process_audio_core conv n ring c := by
      unfold process_audio
      simp [Clock.should_clear_buffer, hcb]
    rw [hpa]
    simpa [hcb] using hring ring c rfl rfl

/-- A concrete clock in the `Playing` state, used by witnesses. -/
def demoPlaying : Clock := { Clock.new 44100 with state := PlaybackState.Playing }

/-- A concrete `Playing` clock with the clear-buffer flag raised. -/
def demoPlayingClear : Clock := { demoPlaying with clear_buffer := true }

/-- C3 witness: a concrete Playing invocation with a two-sample ring and a
three-slot device buffer. -/
theorem callback_fills_buffer_exactly_witness :
    demoPlaying.state = PlaybackState.Playing ∧
    (process_audio (fun x => x) 3 [(1 : ℚ), 2] demoPlaying).1 = [(1 : ℚ), 2, 0] := by
  constructor
  · rfl
  · have h := (callback_fills_buffer_exactly (fun x : ℚ => x) 3 [(1 : ℚ), 2]
      demoPlaying).2.2.1 rfl
    rw [h.2.1]
    rfl

/-- C4: whenever the callback observes the clear-buffer flag, it drains
the consumer endpoint and resets the flag before popping or emitting
anything: the invocation behaves exactly as one on an already-drained ring
with the flag down, the flag leaves the invocation reset, and the ring
leaves the invocation empty. -/
theorem callback_clear_flag_serialises (conv : α → β) (n : ℕ) (ring : List α)
    (c : Clock) (h : c.clear_buffer = true) :
    process_audio conv n ring c =
      process_audio conv n [] c.reset_clear_buffer ∧
    (process_audio conv n ring c).2.1 = [] ∧
    (process_audio conv n ring c).2.2.clear_buffer = false := by
  have hself : process_audio conv n ring c =
      process_audio_core conv n [] c.reset_clear_buffer := by
    unfold process_audio
    simp [Clock.should_clear_buffer, h]
  have hrhs : process_audio conv n [] c.reset_clear_buffer =
      process_audio_core conv n [] c.reset_clear_buffer := by
    unfold process_audio
    simp [Clock.should_clear_buffer, Clock.reset_clear_buffer]
  refine ⟨hself.trans hrhs.symm, ?_, ?_⟩
  · rw [hself]
    by_cases hst : (c.reset_clear_buffer).state = PlaybackState.Playing
    · rw [process_audio_core_playing conv n [] _ hst]
      simp
    · rw [process_audio_core_not_playing conv n [] _ hst]
  · rw [hself]
    by_cases hst : (c.reset_clear_buffer).state = PlaybackState.Playing
    · rw [process_audio_core_playing conv n [] _ hst]
      split <;>
        simp [Clock.set_state, increment_samples_clear_buffer, Clock.reset_clear_buffer]
    · rw [process_audio_core_not_playing conv n [] _ hst]
      rfl

/-- C4 witness: a concrete invocation with the clear flag raised and a
non-empty ring. -/
theorem callback_clear_flag_serialises_witness :
    demoPlayingClear.clear_buffer = true ∧
    (process_audio (fun x => x) 2 [(5 : ℚ), 6] demoPlayingClear).2.1 = [] := by
  exact ⟨rfl,
    (callback_clear_flag_serialises (fun x : ℚ => x) 2 [(5 : ℚ), 6]
      demoPlayingClear rfl).2.1⟩

end CallbackClaims

/-- Commands sent from the host to the producer worker
(`engine.rs`, `DecoderCommand`). -/
inductive DecoderCommand
  | Seek (time : ℚ)
  | Stop
  | SetBassBoost (enabled : Bool)
  | SetBassIntensity (intensity : ℚ)
  deriving DecidableEq, Repr

/-- Rust `f64 as u64` cast: saturates to `[0, 2^64 - 1]` and truncates
toward zero (for non-negative values this is the floor). -/
def f64AsU64 (x : ℚ) : ℕ :=
  if x < 0 then 0 else min ⌊x⌋.toNat (u64Mod - 1)

/-- The host-facing control state involved in `AudioEngine::seek`: the
shared clock and the command channel to the worker (present only while a
track is loaded). -/
structure EngineCtl where
  clock : Clock
  command_tx : Option (List DecoderCommand)

/-- `AudioEngine::seek(time_secs)` (`engine.rs`): computes
`(time_secs * rate * channels) as u64`, stores it as the sample position,
raises the clear-buffer flag, and sends `Seek(time_secs)` to the worker
when a command channel exists. -/
def AudioEngine.seek (e : EngineCtl) (time_secs : ℚ) : EngineCtl :=
  let sample_pos := f64AsU64
    (time_secs * (e.clock.sample_rate : ℚ) * (e.clock.channels : ℚ))
  let c := (e.clock.set_sample_pos sample_pos).signal_clear_buffer
  { clock := c
    command_tx := e.command_tx.map (fun q => q ++ [DecoderCommand.Seek time_secs]) }

lemma f64AsU64_nonpos {x : ℚ} (hx : x ≤ 0) : f64AsU64 x = 0 := by
  unfold f64AsU64
  rcases lt_or_eq_of_le hx with h | h
  · simp [h]
  · subst h
    simp

/-- C10: for every negative `time_secs`, `AudioEngine::seek` stores
sample position 0 (the `f64 → u64` cast saturates below at zero), still
raises the clear-buffer flag, and still appends the `Seek` command for the
worker when a command channel exists. -/
theorem seek_negative_time_saturates (e : EngineCtl) (t : ℚ) (ht : t < 0) :
    (AudioEngine.seek e t).clock.sample_pos = 0 ∧
    (AudioEngine.seek e t).clock.clear_buffer = true ∧
    ∀ q, e.command_tx = some q →
      (AudioEngine.seek e t).command_tx = some (q ++ [DecoderCommand.Seek t]) := by
  have hprod : t * (e.clock.sample_rate : ℚ) * (e.clock.channels : ℚ) ≤ 0 := by
    have h1 : t * (e.clock.sample_rate : ℚ) ≤ 0 :=
      mul_nonpos_of_nonpos_of_nonneg (le_of_lt ht) (by positivity)
    exact mul_nonpos_of_nonpos_of_nonneg h1 (by positivity)
  refine ⟨?_, ?_, ?_⟩
  · simp [AudioEngine.seek, Clock.set_sample_pos, Clock.signal_clear_buffer,
      f64AsU64_nonpos hprod]
  · simp [AudioEngine.seek, Clock.set_sample_pos, Clock.signal_clear_buffer]
  · intro q hq
    simp [AudioEngine.seek, hq]

/-- C10 witness: `seek (-1)` on a concrete engine control state. -/
theorem seek_negative_time_saturates_witness :
    ((-1 : ℚ) < 0) ∧
    (AudioEngine.seek ⟨Clock.new 44100, some []⟩ (-1)).clock.sample_pos = 0 := by
  refine ⟨by norm_num, ?_⟩
  exact (seek_negative_time_saturates ⟨Clock.new 44100, some []⟩ (-1) (by norm_num)).1

/-! DSP primitives (`dsp/biquad.rs`, `dsp/limiter.rs`).  The per-sample
arithmetic is stated over an arbitrary linear ordered field; the
constructors, which evaluate `cos`, `sin`, `exp`, `sqrt` and `10^x`, are
given over `ℝ`. -/

/-- `dsp/biquad.rs`, `FilterType`. -/
inductive FilterType
  | HighPass
  | LowShelf
  | LowPass
  | HighShelf
  deriving DecidableEq, Repr

/-- `dsp/biquad.rs`, `BiquadFilter`: normalised coefficients and
direct-form-II-transposed state. -/
structure BiquadFilter (α : Type) where
  b0 : α
  b1 : α
  b2 : α
  a1 : α
  a2 : α
  z1 : α
  z2 : α
  deriving DecidableEq, Repr

/-- `BiquadFilter::process` (direct form II transposed, per sample). -/
def BiquadFilter.process {α : Type} [LinearOrderedField α]
    (f : BiquadFilter α) (x : α) : BiquadFilter α × α :=
  let y := f.b0 * x + f.z1
  let z1 := f.b1 * x - f.a1 * y + f.z2
  let z2 := f.b2 * x - f.a2 * y
  ({ f with z1 := z1, z2 := z2 }, y)

/-- `BiquadFilter::reset`: clears the state, keeps the coefficients. -/
def BiquadFilter.reset {α : Type} [LinearOrderedField α]
    (f : BiquadFilter α) : BiquadFilter α :=
  { f with z1 := 0, z2 := 0 }

/-- `BiquadFilter::update`: recompute the normalised RBJ-cookbook
coefficients in place (the `z1`/`z2` state is preserved). -/
noncomputable def BiquadFilter.update (f : BiquadFilter ℝ) (ft : FilterType)
    (sample_rate frequency q gain_db : ℝ) : BiquadFilter ℝ :=
  let w0 := 2 * Real.pi * frequency / sample_rate
  let c := Real.cos w0
  let s := Real.sin w0
  let a := (10 : ℝ) ^ (gain_db / 40)
  match ft with
  | FilterType.HighPass =>
    let alpha := s / (2 * q)
    let b0 := (1 + c) / 2
    let b1 := -(1 + c)
    let b2 := (1 + c) / 2
    let a0 := 1 + alpha
    let a1 := -2 * c
    let a2 := 1 - alpha
    { f with b0 := b0 / a0, b1 := b1 / a0, b2 := b2 / a0,
             a1 := a1 / a0, a2 := a2 / a0 }
  | FilterType.LowPass =>
    let alpha := s / (2 * q)
    let b0 := (1 - c) / 2
    let b1 := 1 - c
    let b2 := (1 - c) / 2
    let a0 := 1 + alpha
    let a1 := -2 * c
    let a2 := 1 - alpha
    { f with b0 := b0 / a0, b1 := b1 / a0, b2 := b2 / a0,
             a1 := a1 / a0, a2 := a2 / a0 }
  | FilterType.LowShelf =>
    let alpha := s / 2 * Real.sqrt ((a + 1 / a) * (1 / q - 1) + 2)
    let b0 := a * ((a + 1) - (a - 1) * c + alpha)
    let b1 := 2 * a * ((a - 1) - (a + 1) * c)
    let b2 := a * ((a + 1) - (a - 1) * c - alpha)
    let a0 := (a + 1) + (a - 1) * c + alpha
    let a1 := -2 * ((a - 1) + (a + 1) * c)
    let a2 := (a + 1) + (a - 1) * c - alpha
    { f with b0 := b0 / a0, b1 := b1 / a0, b2 := b2 / a0,
             a1 := a1 / a0, a2 := a2 / a0 }
  | FilterType.HighShelf =>
    let alpha := s / 2 * Real.sqrt ((a + 1 / a) * (1 / q - 1) + 2)
    let b0 := a * ((a + 1) + (a - 1) * c + alpha)
    let b1 := -2 * a * ((a - 1) + (a + 1) * c)
    let b2 := a * ((a + 1) + (a - 1) * c - alpha)
    let a0 := (a + 1) - (a - 1) * c + alpha
    let a1 := 2 * ((a - 1) - (a + 1) * c)
    let a2 := (a + 1) - (a - 1) * c - alpha
    { f with b0 := b0 / a0, b1 := b1 / a0, b2 := b2 / a0,
             a1 := a1 / a0, a2 := a2 / a0 }

/-- `BiquadFilter::new`: identity coefficients and zero state, then
`update`. -/
noncomputable def BiquadFilter.new (ft : FilterType)
    (sample_rate frequency q gain_db : ℝ) : BiquadFilter ℝ :=
  BiquadFilter.update
    { b0 := 1, b1 := 0, b2 := 0, a1 := 0, a2 := 0, z1 := 0, z2 := 0 }
    ft sample_rate frequency q gain_db

/-- `dsp/limiter.rs`, `Limiter`. -/
structure Limiter (α : Type) where
  threshold : α
  attack_coeff : α
  release_coeff : α
  envelope : α
  gain : α
  smoothing_coeff : α
  deriving DecidableEq, Repr

/-- `Limiter::process`: envelope follower with attack/release branches, a
`1e-10` denormal guard on `|input|`, gain computation against the
threshold, and one-pole gain smoothing. -/
def Limiter.process {α : Type} [LinearOrderedField α]
    (l : Limiter α) (input : α) : Limiter α × α :=
  let x := |input| + 1 / 10 ^ 10
  let envelope :=
    if x > l.envelope then l.attack_coeff * (l.envelope - x) + x
    else l.release_coeff * (l.envelope - x) + x
  let target_gain := if envelope > l.threshold then l.threshold / envelope else 1
  let gain := l.smoothing_coeff * (l.gain - target_gain) + target_gain
  ({ l with envelope := envelope, gain := gain }, input * gain)

/-- `Limiter::process` folded over a block of samples, in order. -/
def Limiter.processList {α : Type} [LinearOrderedField α] :
    Limiter α → List α → Limiter α × List α
  | l, [] => (l, [])
  | l, x :: xs =>
    let r := l.process x
    let rest := r.1.processList xs
    (rest.1, r.2 :: rest.2)

/-- `Limiter::reset`. -/
def Limiter.reset {α : Type} [LinearOrderedField α] (l : Limiter α) : Limiter α :=
  { l with envelope := 0, gain := 1 }

/-- `Limiter::new(threshold_db, sample_rate)`: threshold
`10^(threshold_db/20)`, attack 10 ms, release 250 ms, smoothing 10 ms,
each as `exp(-1/(sample_rate · τ))`; envelope 0, gain 1. -/
noncomputable def Limiter.new (threshold_db sample_rate : ℝ) : Limiter ℝ :=
  { threshold := (10 : ℝ) ^ (threshold_db / 20)
    attack_coeff := Real.exp (-1 / (sample_rate * (1 / 100)))
    release_coeff := Real.exp (-1 / (sample_rate * (1 / 4)))
    smoothing_coeff := Real.exp (-1 / (sample_rate * (1 / 100)))
    envelope := 0
    gain := 1 }

section LimiterClaims

variable {α : Type} [LinearOrderedField α]

/-- Transparency of the limiter state machine: as long as every guarded
magnitude `|x| + 1e-10` stays at or below the threshold, the envelope
(a convex combination of its old value and the guarded magnitude, for
attack and release coefficients in `[0,1]`) never exceeds the threshold,
the smoothed gain stays exactly 1, and the output reproduces the input. -/
lemma limiter_transparent_aux (input : List α) :
    ∀ l : Limiter α,
      0 ≤ l.attack_coeff → l.attack_coeff ≤ 1 →
      0 ≤ l.release_coeff → l.release_coeff ≤ 1 →
      l.gain = 1 → 0 ≤ l.envelope → l.envelope ≤ l.threshold →
      (∀ x ∈ input, |x| + 1 / 10 ^ 10 ≤ l.threshold) →
      (l.processList input).2 = input ∧
      (l.processList input).1.gain = 1 ∧
      0 ≤ (l.processList input).1.envelope ∧
      (l.processList input).1.envelope ≤ l.threshold ∧
      (l.processList input).1.threshold = l.threshold ∧
      (l.processList input).1.attack_coeff = l.attack_coeff ∧
      (l.processList input).1.release_coeff = l.release_coeff := by
  induction input with
  | nil =>
    intro l _ _ _ _ hg he0 heT _
    exact ⟨rfl, hg, he0, heT, rfl, rfl, rfl⟩
  | cons x xs ih =>
    intro l ha0 ha1 hr0 hr1 hg he0 heT hx
    have hxmem : |x| + 1 / 10 ^ 10 ≤ l.threshold := hx x (List.mem_cons_self x xs)
    have hguard : (0 : α) ≤ |x| + 1 / 10 ^ 10 := by positivity
    -- the new envelope is a convex combination of the old one and the guard
    have hconv : ∀ coeff : α, 0 ≤ coeff → coeff ≤ 1 →
        0 ≤ coeff * (l.envelope - (|x| + 1 / 10 ^ 10)) + (|x| + 1 / 10 ^ 10) ∧
        coeff * (l.envelope - (|x| + 1 / 10 ^ 10)) + (|x| + 1 / 10 ^ 10) ≤
          l.threshold := by
      intro coeff hc0 hc1
      constructor
      · nlinarith [mul_nonneg hc0 he0]
      · nlinarith [mul_nonneg hc0 he0]
    have hstep : l.process x =
        ({ l with
            envelope :=
              if |x| + 1 / 10 ^ 10 > l.envelope then
                l.attack_coeff * (l.envelope - (|x| + 1 / 10 ^ 10)) +
                  (|x| + 1 / 10 ^ 10)
              else
                l.release_coeff * (l.envelope - (|x| + 1 / 10 ^ 10)) +
                  (|x| + 1 / 10 ^ 10),
            gain := 1 }, x) := by
      simp only [Limiter.process]
      have henv : ∀ e : α, 0 ≤ e → e ≤ l.threshold →
          (if e > l.threshold then l.threshold / e else 1) = 1 := by
        intro e _ heT'
        rw [if_neg (not_lt.mpr heT')]
      split
      case isTrue h =>
        have h2 := (hconv l.attack_coeff ha0 ha1).2
        rw [henv _ (hconv l.attack_coeff ha0 ha1).1 h2]
        have hga : l.smoothing_coeff * (l.gain - 1) + 1 = 1 := by
          rw [hg]; ring
        rw [hga]
        simp [mul_one]
      case isFalse h =>
        have h2 := (hconv l.release_coeff hr0 hr1).2
        rw [henv _ (hconv l.release_coeff hr0 hr1).1 h2]
        have hga : l.smoothing_coeff * (l.gain - 1) + 1 = 1 := by
          rw [hg]; ring
        rw [hga]
        simp [mul_one]
    simp only [Limiter.processList]
    rw [hstep]
    dsimp only
    have hrec := ih
      { l with
        envelope :=
          if |x| + 1 / 10 ^ 10 > l.envelope then
            l.attack_coeff * (l.envelope - (|x| + 1 / 10 ^ 10)) +
              (|x| + 1 / 10 ^ 10)
          else
            l.release_coeff * (l.envelope - (|x| + 1 / 10 ^ 10)) +
              (|x| + 1 / 10 ^ 10)
        gain := 1 }
      ha0 ha1 hr0 hr1 rfl
      (by
        show (0 : α) ≤
          if |x| + 1 / 10 ^ 10 > l.envelope then
            l.attack_coeff * (l.envelope - (|x| + 1 / 10 ^ 10)) +
              (|x| + 1 / 10 ^ 10)
          else
            l.release_coeff * (l.envelope - (|x| + 1 / 10 ^ 10)) +
              (|x| + 1 / 10 ^ 10)
        split
        · exact (hconv l.attack_coeff ha0 ha1).1
        · exact (hconv l.release_coeff hr0 hr1).1)
      (by
        show (if |x| + 1 / 10 ^ 10 > l.envelope then
            l.attack_coeff * (l.envelope - (|x| + 1 / 10 ^ 10)) +
              (|x| + 1 / 10 ^ 10)
          else
            l.release_coeff * (l.envelope - (|x| + 1 / 10 ^ 10)) +
              (|x| + 1 / 10 ^ 10)) ≤ l.threshold
        split
        · exact (hconv l.attack_coeff ha0 ha1).2
        · exact (hconv l.release_coeff hr0 hr1).2)
      (by
        intro y hy
        exact hx y (List.mem_cons_of_mem x hy))
    exact ⟨by rw [hrec.1], hrec.2.1, hrec.2.2.1, hrec.2.2.2.1, hrec.2.2.2.2.1,
      hrec.2.2.2.2.2.1, hrec.2.2.2.2.2.2⟩

lemma limiter_threshold_pos (tdb sr : ℝ) : 0 < (Limiter.new tdb sr).threshold :=
  Real.rpow_pos_of_pos (by norm_num) _

lemma limiter_threshold_lt_one (sr : ℝ) : (Limiter.new (-(1 / 10)) sr).threshold < 1 := by
  exact Real.rpow_lt_one_of_one_lt_of_neg (by norm_num) (by norm_num)

lemma limiter_threshold_ge_tenth (sr : ℝ) :
    (1 : ℝ) / 10 ≤ (Limiter.new (-(1 / 10)) sr).threshold := by
  have h1 : (10 : ℝ) ^ ((-1 : ℤ) : ℝ) = 1 / 10 := by
    rw [Real.rpow_intCast]
    norm_num
  have h2 : (10 : ℝ) ^ ((-1 : ℤ) : ℝ) ≤ (10 : ℝ) ^ (-(1 / 10) / 20 : ℝ) := by
    apply (Real.rpow_le_rpow_left_iff (by norm_num : (1 : ℝ) < 10)).mpr
    push_cast
    norm_num
  calc (1 : ℝ) / 10 = (10 : ℝ) ^ ((-1 : ℤ) : ℝ) := h1.symm
    _ ≤ (10 : ℝ) ^ (-(1 / 10) / 20 : ℝ) := h2
    _ = (Limiter.new (-(1 / 10)) sr).threshold := rfl

lemma exp_coeff_mem_unit {sr τ : ℝ} (hsr : 0 < sr) (hτ : 0 < τ) :
    0 ≤ Real.exp (-1 / (sr * τ)) ∧ Real.exp (-1 / (sr * τ)) ≤ 1 := by
  refine ⟨(Real.exp_pos _).le, Real.exp_le_one_iff.mpr ?_⟩
  have h : (0 : ℝ) < sr * τ := by positivity
  exact le_of_lt (div_neg_of_neg_of_pos (by norm_num) h)

/-- C6 (amended): for every fresh (or reset) limiter built for a positive
sample rate, the limiter is exactly transparent on any input block in
which every sample keeps a `1e-10` margin below the threshold:
`|x| + 1e-10 ≤ T` for all samples implies output = input, sample for
sample.  (The margin is forced by the denormal guard the code adds to
`|x|` before the envelope update; see the counterexample at `|x| = T`.) -/
theorem limiter_transparent_below_guard (sr : ℝ) (hsr : 0 < sr)
    (input : List ℝ)
    (hx : ∀ x ∈ input, |x| + 1 / 10 ^ 10 ≤ (Limiter.new (-(1 / 10)) sr).threshold) :
    ((Limiter.new (-(1 / 10)) sr).processList input).2 = input := by
  have ha := exp_coeff_mem_unit hsr (by norm_num : (0 : ℝ) < 1 / 100)
  have hr := exp_coeff_mem_unit hsr (by norm_num : (0 : ℝ) < 1 / 4)
  exact (limiter_transparent_aux input (Limiter.new (-(1 / 10)) sr)
    ha.1 ha.2 hr.1 hr.2 rfl le_rfl (limiter_threshold_pos _ _).le hx).1

/-- C6 witness: the fresh limiter at sample rate 1 reproduces the block
`[0]` exactly. -/
theorem limiter_transparent_below_guard_witness :
    (0 : ℝ) < 1 ∧
    (∀ x ∈ ([0] : List ℝ),
      |x| + 1 / 10 ^ 10 ≤ (Limiter.new (-(1 / 10)) 1).threshold) ∧
    ((Limiter.new (-(1 / 10)) 1).processList [0]).2 = [0] := by
  have hx : ∀ x ∈ ([0] : List ℝ),
      |x| + 1 / 10 ^ 10 ≤ (Limiter.new (-(1 / 10)) 1).threshold := by
    intro x hxm
    rw [List.mem_singleton] at hxm
    subst hxm
    have := limiter_threshold_ge_tenth 1
    simp only [abs_zero, zero_add]
    linarith [this]
  exact ⟨one_pos, hx, limiter_transparent_below_guard 1 one_pos [0] hx⟩

lemma exp_neg_hundred_small : Real.exp (-100 : ℝ) < 1 / (10 ^ 10 + 1) := by
  have h10 : (11 : ℝ) ≤ Real.exp 10 := by
    have := Real.add_one_le_exp (10 : ℝ)
    linarith
  have hpow : (11 : ℝ) ^ (10 : ℕ) ≤ Real.exp 10 ^ (10 : ℕ) :=
    pow_le_pow_left₀ (by norm_num) h10 10
  have hexp100 : Real.exp (100 : ℝ) = Real.exp 10 ^ (10 : ℕ) := by
    rw [← Real.exp_nat_mul]
    norm_num
  have hbig : (10 : ℝ) ^ 10 + 1 < Real.exp (100 : ℝ) := by
    rw [hexp100]
    calc (10 : ℝ) ^ 10 + 1 < (11 : ℝ) ^ (10 : ℕ) := by norm_num
      _ ≤ Real.exp 10 ^ (10 : ℕ) := hpow
  have hepos : (0 : ℝ) < Real.exp (100 : ℝ) := Real.exp_pos _
  rw [show (-100 : ℝ) = -(100 : ℝ) by norm_num, Real.exp_neg]
  rw [inv_eq_one_div]
  apply div_lt_div_of_pos_left one_pos (by positivity) hbig

/-- C6 counterexample: the claim "every sample with `|x| ≤ T` passes
through a fresh limiter unchanged" fails on the code: at sample rate 1
the single-sample block `[T]` satisfies `|T| ≤ T`, yet the `1e-10`
denormal guard pushes the envelope above the threshold in one step
(`attack_coeff = exp(-100) ≈ 0`), so the output sample is strictly
smaller than the input. -/
theorem limiter_claim_counterexample :
    |(Limiter.new (-(1 / 10)) 1).threshold| ≤ (Limiter.new (-(1 / 10)) 1).threshold ∧
    ((Limiter.new (-(1 / 10)) 1).process
        ((Limiter.new (-(1 / 10)) 1).threshold)).2 ≠
      (Limiter.new (-(1 / 10)) 1).threshold := by
  have hT0 : 0 < (Limiter.new (-(1 / 10)) 1).threshold := limiter_threshold_pos _ _
  have hT1 : (Limiter.new (-(1 / 10)) 1).threshold < 1 := limiter_threshold_lt_one 1
  set T : ℝ := (Limiter.new (-(1 / 10)) 1).threshold with hT
  have habs : |T| = T := abs_of_pos hT0
  refine ⟨habs.le, ?_⟩
  have hcoeff : (Limiter.new (-(1 / 10)) 1).attack_coeff = Real.exp (-100 : ℝ) := by
    show Real.exp (-1 / (1 * (1 / 100))) = Real.exp (-100 : ℝ)
    norm_num
  have hsmooth : (Limiter.new (-(1 / 10)) 1).smoothing_coeff = Real.exp (-100 : ℝ) := by
    show Real.exp (-1 / (1 * (1 / 100))) = Real.exp (-100 : ℝ)
    norm_num
  have ha0 : (0 : ℝ) < Real.exp (-100 : ℝ) := Real.exp_pos _
  have ha1 : Real.exp (-100 : ℝ) < 1 := Real.exp_lt_one_iff.mpr (by norm_num)
  have hasmall := exp_neg_hundred_small
  have hguard : (0 : ℝ) < T + 1 / 10 ^ 10 := by positivity
  -- one-step envelope: (1 - a) · (T + 1e-10), which already exceeds T
  have henv1 : Real.exp (-100 : ℝ) * ((0 : ℝ) - (T + 1 / 10 ^ 10)) +
      (T + 1 / 10 ^ 10) > T := by
    have hmul : Real.exp (-100 : ℝ) * (T + 1 / 10 ^ 10) <
        (1 / (10 ^ 10 + 1)) * (1 + 1 / 10 ^ 10) := by
      calc Real.exp (-100 : ℝ) * (T + 1 / 10 ^ 10) <
          (1 / (10 ^ 10 + 1)) * (T + 1 / 10 ^ 10) :=
            mul_lt_mul_of_pos_right hasmall hguard
        _ ≤ (1 / (10 ^ 10 + 1)) * (1 + 1 / 10 ^ 10) := by
            apply mul_le_mul_of_nonneg_left _ (by norm_num)
            linarith
    have harith : ((1 : ℝ) / (10 ^ 10 + 1)) * (1 + 1 / 10 ^ 10) = 1 / 10 ^ 10 := by
      norm_num
    nlinarith
  -- evaluate the single process step
  have henv0 : (Limiter.new (-(1 / 10)) 1).envelope = 0 := rfl
  have hgain0 : (Limiter.new (-(1 / 10)) 1).gain = 1 := rfl
  simp only [Limiter.process, ← hT, habs, henv0, hgain0, hcoeff, hsmooth]
  rw [if_pos (by positivity : T + 1 / 10 ^ 10 > (0 : ℝ))]
  rw [if_pos (by exact henv1)]
  set env1 : ℝ := Real.exp (-100 : ℝ) * ((0 : ℝ) -
    (T + 1 / 10 ^ 10)) + (T + 1 / 10 ^ 10) with henv1def
  have henv1' : env1 > T := henv1
  have henv1pos : 0 < env1 := lt_trans hT0 henv1'
  have htg : T / env1 < 1 := (div_lt_one henv1pos).mpr henv1'
  have hg1 : Real.exp (-100 : ℝ) * ((1 : ℝ) - T / env1) + T / env1 < 1 := by
    nlinarith
  intro hcontra
  have hout : T * (Real.exp (-100 : ℝ) * ((1 : ℝ) - T / env1) + T / env1) < T * 1 :=
    mul_lt_mul_of_pos_left hg1 hT0
  rw [mul_one] at hout
  exact (ne_of_lt hout) hcontra

end LimiterClaims

/-! Interleaved frame handling shared by the per-channel DSP loops
(`for i in 0..frames { for ch in 0..channels { idx = i*channels + ch } }`):
the flat sample slice is visited frame-major, channel-minor, `frames =
samples.len / channels` full frames are processed, and a trailing partial
frame is left untouched in place. -/

/-- Split a list into `n` chunks of `c` elements plus the remainder. -/
def chunksGo {α : Type} (c : ℕ) : ℕ → List α → List (List α) × List α
  | 0, l => ([], l)
  | n + 1, l =>
    let r := chunksGo c n (l.drop c)
    (l.take c :: r.1, r.2)

/-- Split a flat interleaved slice into its `length / c` full frames and
the untouched partial tail. -/
def splitFrames {α : Type} (c : ℕ) (l : List α) : List (List α) × List α :=
  chunksGo c (l.length / c) l

section BassDef

variable {α : Type} [LinearOrderedField α]

/-- `dsp/bass.rs`, `BassProcessor`. -/
structure BassProcessor (α : Type) where
  high_passes : List (BiquadFilter α)
  low_shelves : List (BiquadFilter α)
  limiters : List (Limiter α)
  channels : ℕ
  sample_rate : α
  low_energy_accumulator : List α
  total_energy_accumulator : List α
  sample_count : ℕ
  target_bass_gain : α
  current_bass_gain : α
  enabled : Bool
  intensity : α

/-- `BassProcessor::set_enabled`: disabling also zeroes the target gain. -/
def BassProcessor.set_enabled (bp : BassProcessor α) (enabled : Bool) :
    BassProcessor α :=
  if enabled then { bp with enabled := enabled }
  else { bp with enabled := enabled, target_bass_gain := 0 }

/-- `BassProcessor::set_intensity`: clamps to `[0, 100]`. -/
def BassProcessor.set_intensity (bp : BassProcessor α) (intensity : α) :
    BassProcessor α :=
  { bp with intensity := max 0 (min intensity 100) }

/-- `BassProcessor::update_filters`, with the low-shelf coefficient
recomputation (`update_coefficients(LowShelf, sample_rate, 100.0, 0.7,
current_bass_gain)`) abstracted as `co sample_rate gain filter` so the
arithmetic part stays field-generic; over `ℝ` it is `realShelfUpdate`. -/
def BassProcessor.update_filters (co : α → α → BiquadFilter α → BiquadFilter α)
    (bp : BassProcessor α) : BassProcessor α :=
  let diff := bp.target_bass_gain - bp.current_bass_gain
  if |diff| > 1 / 1000 then
    let g := bp.current_bass_gain + diff * (1 / 1000)
    { bp with
      current_bass_gain := g
      low_shelves := bp.low_shelves.map (co bp.sample_rate g) }
  else bp

/-- One interleaved frame of the `BassProcessor::process` inner loop: per
channel, accumulate `|x|` into the total-energy bin, high-pass, accumulate
the post-high-pass `|·|` into the low-energy bin, low-shelf, limit. -/
def bassFrame :
    List (BiquadFilter α) → List (BiquadFilter α) → List (Limiter α) →
    List α → List α → List α →
    List (BiquadFilter α) × List (BiquadFilter α) × List (Limiter α) ×
      List α × List α × List α
  | h :: hs, s :: ss, l :: ls, t :: ts, lo :: los, x :: xs =>
    let t1 := t + |x|
    let hy := h.process x
    let lo1 := lo + |hy.2|
    let sy := s.process hy.2
    let ly := l.process sy.2
    let rest := bassFrame hs ss ls ts los xs
    (hy.1 :: rest.1, sy.1 :: rest.2.1, ly.1 :: rest.2.2.1,
      t1 :: rest.2.2.2.1, lo1 :: rest.2.2.2.2.1, ly.2 :: rest.2.2.2.2.2)
  | hs, ss, ls, ts, los, _ => (hs, ss, ls, ts, los, [])

/-- One frame of `BassProcessor::process`, lifted back to the processor
state (the per-frame `sample_count += 1` included). -/
def BassProcessor.processFrame (bp : BassProcessor α) (frame : List α) :
    BassProcessor α × List α :=
  let r := bassFrame bp.high_passes bp.low_shelves bp.limiters
    bp.total_energy_accumulator bp.low_energy_accumulator frame
  ({ bp with
      high_passes := r.1
      low_shelves := r.2.1
      limiters := r.2.2.1
      total_energy_accumulator := r.2.2.2.1
      low_energy_accumulator := r.2.2.2.2.1
      sample_count := bp.sample_count + 1 }, r.2.2.2.2.2)

/-- The frame loop of `BassProcessor::process`. -/
def BassProcessor.processFrames :
    BassProcessor α → List (List α) → BassProcessor α × List α
  | bp, [] => (bp, [])
  | bp, f :: fs =>
    let r := bp.processFrame f
    let rest := r.1.processFrames fs
    (rest.1, r.2 ++ rest.2)

/-- Channel loop of `BassProcessor::update_adaptive_gain`: for each
channel, form the per-sample averages of the two energy bins, add the
averages into running sums, and add the ratio `avg_low / avg_total` (zero
when `avg_total ≤ 0.0001`).  Returns (sum of ratios, sum of per-channel
average totals, sum of per-channel average lows). -/
def adaptSums (n : α) : List α → List α → α × α × α
  | t :: ts, lo :: los =>
    let rest := adaptSums n ts los
    let avg_total := t / n
    let avg_low := lo / n
    let r := if avg_total > 1 / 10000 then avg_low / avg_total else 0
    (rest.1 + r, rest.2.1 + avg_total, rest.2.2 + avg_low)
  | _, _ => (0, 0, 0)

/-- `BassProcessor::update_adaptive_gain` (`dsp/bass.rs`): when disabled,
zero the target and the counter; otherwise average the per-channel energy
ratios, raise the target by 0.5 dB (clamped to
`intensity/100 · 8`) when the averaged ratio is below 0.35 and the
averaged total energy exceeds 0.001, lower it by 0.5 dB (clamped to 0)
when the ratio exceeds 0.55, re-clamp against the maximum, zero the
accumulators of the visited channels and reset the counter. -/
def BassProcessor.update_adaptive_gain (bp : BassProcessor α) : BassProcessor α :=
  if !bp.enabled then
    { bp with target_bass_gain := 0, sample_count := 0 }
  else
    let max_possible_gain := bp.intensity / 100 * 8
    let sums := adaptSums (bp.sample_count : α)
      (bp.total_energy_accumulator.take bp.channels)
      (bp.low_energy_accumulator.take bp.channels)
    let avg_bass_r := sums.1 / (bp.channels : α)
    let total_avg_total := sums.2.1 / (bp.channels : α)
    let tg0 :=
      if total_avg_total > 1 / 1000 then
        if avg_bass_r < 35 / 100 then
          min (bp.target_bass_gain + 1 / 2) max_possible_gain
        else if avg_bass_r > 55 / 100 then
          max (bp.target_bass_gain - 1 / 2) 0
        else bp.target_bass_gain
      else bp.target_bass_gain
    let tg := if tg0 > max_possible_gain then max_possible_gain else tg0
    { bp with
      target_bass_gain := tg
      sample_count := 0
      total_energy_accumulator :=
        List.replicate (min bp.channels bp.total_energy_accumulator.length) 0 ++
          bp.total_energy_accumulator.drop bp.channels
      low_energy_accumulator :=
        List.replicate (min bp.channels bp.low_energy_accumulator.length) 0 ++
          bp.low_energy_accumulator.drop bp.channels }

/-- `BassProcessor::process`: smooth the gain (`update_filters`), run the
per-channel cascade over the full frames (leaving any partial trailing
frame untouched), then run the adapt step when 2048 frames have
accumulated. -/
def BassProcessor.process (co : α → α → BiquadFilter α → BiquadFilter α)
    (bp : BassProcessor α) (samples : List α) : BassProcessor α × List α :=
  let bp1 := bp.update_filters co
  let fr := splitFrames bp1.channels samples
  let r := bp1.processFrames fr.1
  let bp2 := if 2048 ≤ r.1.sample_count then r.1.update_adaptive_gain else r.1
  (bp2, r.2 ++ fr.2)

end BassDef

/-- The low-shelf coefficient recomputation the bass processor performs
over `ℝ` (`update_coefficients(LowShelf, sample_rate, 100.0, 0.7, gain)`,
state-preserving). -/
noncomputable def realShelfUpdate (sample_rate gain : ℝ) (f : BiquadFilter ℝ) :
    BiquadFilter ℝ :=
  f.update FilterType.LowShelf sample_rate 100 (7 / 10) gain

/-- `BassProcessor::new(sample_rate, channels)`: per channel a 30 Hz
high-pass (Q = 0.707), a 100 Hz low-shelf (Q = 0.7, 0 dB) and a −0.1 dB
limiter; zeroed accumulators and gains, disabled, intensity 50. -/
noncomputable def BassProcessor.new (sample_rate : ℝ) (channels : ℕ) :
    BassProcessor ℝ :=
  { high_passes :=
      List.replicate channels
        (BiquadFilter.new FilterType.HighPass sample_rate 30 (707 / 1000) 0)
    low_shelves :=
      List.replicate channels
        (BiquadFilter.new FilterType.LowShelf sample_rate 100 (7 / 10) 0)
    limiters := List.replicate channels (Limiter.new (-(1 / 10)) sample_rate)
    channels := channels
    sample_rate := sample_rate
    low_energy_accumulator := List.replicate channels 0
    total_energy_accumulator := List.replicate channels 0
    sample_count := 0
    target_bass_gain := 0
    current_bass_gain := 0
    enabled := false
    intensity := 50 }

section EqChainDef

variable {α : Type} [LinearOrderedField α]

/-- One interleaved frame mapped through a list of per-channel biquads
(the inner loop of `HighFreqEQ::process`). -/
def biquadFrame : List (BiquadFilter α) → List α →
    List (BiquadFilter α) × List α
  | f :: fs, x :: xs =>
    let r := f.process x
    let rest := biquadFrame fs xs
    (r.1 :: rest.1, r.2 :: rest.2)
  | fs, _ => (fs, [])

/-- The frame loop of a per-channel biquad bank. -/
def biquadFrames : List (BiquadFilter α) → List (List α) →
    List (BiquadFilter α) × List α
  | fs, [] => (fs, [])
  | fs, f :: rest =>
    let r := biquadFrame fs f
    let rr := biquadFrames r.1 rest
    (rr.1, r.2 ++ rr.2)

/-- A per-channel biquad bank applied to a flat interleaved slice:
`frames = len / channels` full frames processed, partial tail untouched. -/
def biquadChunkMap (channels : ℕ) (fs : List (BiquadFilter α))
    (samples : List α) : List (BiquadFilter α) × List α :=
  let fr := splitFrames channels samples
  let r := biquadFrames fs fr.1
  (r.1, r.2 ++ fr.2)

/-- One interleaved frame mapped through a list of per-channel limiters
(the final loop of `DspChain::process`). -/
def limiterFrame : List (Limiter α) → List α → List (Limiter α) × List α
  | l :: ls, x :: xs =>
    let r := l.process x
    let rest := limiterFrame ls xs
    (r.1 :: rest.1, r.2 :: rest.2)
  | ls, _ => (ls, [])

/-- The frame loop of a per-channel limiter bank. -/
def limiterFrames : List (Limiter α) → List (List α) →
    List (Limiter α) × List α
  | ls, [] => (ls, [])
  | ls, f :: rest =>
    let r := limiterFrame ls f
    let rr := limiterFrames r.1 rest
    (rr.1, r.2 ++ rr.2)

/-- A per-channel limiter bank applied to a flat interleaved slice. -/
def limiterChunkMap (channels : ℕ) (ls : List (Limiter α))
    (samples : List α) : List (Limiter α) × List α :=
  let fr := splitFrames channels samples
  let r := limiterFrames ls fr.1
  (r.1, r.2 ++ fr.2)

/-- `dsp/eq.rs`, `HighFreqEQ`: one high-shelf biquad per channel. -/
structure HighFreqEQ (α : Type) where
  filters : List (BiquadFilter α)
  channels : ℕ

/-- `HighFreqEQ::process`. -/
def HighFreqEQ.process (eq1 : HighFreqEQ α) (samples : List α) :
    HighFreqEQ α × List α :=
  let r := biquadChunkMap eq1.channels eq1.filters samples
  ({ eq1 with filters := r.1 }, r.2)

/-- `HighFreqEQ::new(sample_rate, channels)`: per channel a high-shelf at
12 kHz, Q = 0.7, −1.5 dB. -/
noncomputable def HighFreqEQ.new (sample_rate : ℝ) (channels : ℕ) :
    HighFreqEQ ℝ :=
  { filters :=
      List.replicate channels
        (BiquadFilter.new FilterType.HighShelf sample_rate 12000 (7 / 10)
          (-(3 / 2)))
    channels := channels }

/-- `dsp/dsp_chain.rs`, `DspChain`. -/
structure DspChain (α : Type) where
  bass : BassProcessor α
  hf_eq : HighFreqEQ α
  limiter : List (Limiter α)
  channels : ℕ

/-- `DspChain::process`: bass, then high-shelf EQ, then the per-channel
limiter loop. -/
def DspChain.process (co : α → α → BiquadFilter α → BiquadFilter α)
    (dc : DspChain α) (samples : List α) : DspChain α × List α :=
  let b := dc.bass.process co samples
  let e := dc.hf_eq.process b.2
  let l := limiterChunkMap dc.channels dc.limiter e.2
  ({ dc with bass := b.1, hf_eq := e.1, limiter := l.1 }, l.2)

/-- `DspChain::new(sample_rate, channels)`. -/
noncomputable def DspChain.new (sample_rate : ℝ) (channels : ℕ) : DspChain ℝ :=
  { bass := BassProcessor.new sample_rate channels
    hf_eq := HighFreqEQ.new sample_rate channels
    limiter := List.replicate channels (Limiter.new (-(1 / 10)) sample_rate)
    channels := channels }

end EqChainDef

section AdaptClaims

/-- Channel loop of the spec's adapt rule, for comparison with
`adaptSums`: the per-channel ratio is `√(avg_low / avg_total)` (the spec's
`bass_ratio = √(low_ch / total_ch)` over the accumulated averages), zero
on negligible total.  Returns (sum of ratios, sum of average totals). -/
noncomputable def specAdaptSums (n : ℝ) : List ℝ → List ℝ → ℝ × ℝ
  | t :: ts, lo :: los =>
    let rest := specAdaptSums n ts los
    let avg_total := t / n
    let avg_low := lo / n
    let r := if avg_total > 1 / 10000 then Real.sqrt (avg_low / avg_total) else 0
    (rest.1 + r, rest.2 + avg_total)
  | _, _ => (0, 0)

/-- The adapt-boundary target gain the claim (spec §4.5) prescribes,
written from the spec's words for comparison with
`BassProcessor.update_adaptive_gain`: ratio `√(low/total)` averaged over
channels, raise by a 0.2 dB step clamped to `[0, intensity/100·8]` when
the signal is present and the averaged ratio is below 0.4, lower by the
same step clamped at 0 when the averaged ratio is above 0.6. -/
noncomputable def specAdaptTarget (bp : BassProcessor ℝ) : ℝ :=
  let max_gain_db := bp.intensity / 100 * 8
  let sums := specAdaptSums (bp.sample_count : ℝ)
    (bp.total_energy_accumulator.take bp.channels)
    (bp.low_energy_accumulator.take bp.channels)
  let avg_bass_r := sums.1 / (bp.channels : ℝ)
  let avg_total := sums.2 / (bp.channels : ℝ)
  if avg_total > 1 / 1000 ∧ avg_bass_r < 4 / 10 then
    max 0 (min (bp.target_bass_gain + 2 / 10) max_gain_db)
  else if avg_bass_r > 6 / 10 then
    max (bp.target_bass_gain - 2 / 10) 0
  else bp.target_bass_gain

/-- A concrete enabled bass-processor state at an adapt boundary, with
one channel, 2048 accumulated frames, a per-sample average total energy
of 1 and a low/total energy ratio of 0.09 (so the spec's `√ratio` is 0.3). -/
noncomputable def demoBassAdapt : BassProcessor ℝ :=
  { high_passes := []
    low_shelves := []
    limiters := []
    channels := 1
    sample_rate := 44100
    low_energy_accumulator := [4608 / 25]
    total_energy_accumulator := [2048]
    sample_count := 2048
    target_bass_gain := 0
    current_bass_gain := 0
    enabled := true
    intensity := 50 }

/-- C5 counterexample: at `demoBassAdapt` the code raises the target gain
by its 0.5 dB step (ratio `0.09 < 0.35`, no square root), while the
claim's rule (√ratio `= 0.3 < 0.4`, 0.2 dB step) would produce 0.2; the
two disagree. -/
theorem bass_adapt_claim_counterexample :
    demoBassAdapt.update_adaptive_gain.target_bass_gain = 1 / 2 ∧
    specAdaptTarget demoBassAdapt = 1 / 5 ∧
    demoBassAdapt.update_adaptive_gain.target_bass_gain ≠
      specAdaptTarget demoBassAdapt := by
  have hcode : demoBassAdapt.update_adaptive_gain.target_bass_gain = 1 / 2 := by
    simp only [BassProcessor.update_adaptive_gain, demoBassAdapt, adaptSums]
    norm_num
  have hsums : specAdaptSums ((2048 : ℕ) : ℝ) [2048] [4608 / 25] = (3 / 10, 1) := by
    simp only [specAdaptSums]
    rw [if_pos (by push_cast; norm_num : (2048 : ℝ) / ((2048 : ℕ) : ℝ) > 1 / 10000)]
    rw [show ((4608 : ℝ) / 25 / ((2048 : ℕ) : ℝ)) / ((2048 : ℝ) / ((2048 : ℕ) : ℝ))
        = (3 / 10) ^ 2 by push_cast; norm_num]
    rw [Real.sqrt_sq (by norm_num)]
    push_cast
    norm_num
  have hspec : specAdaptTarget demoBassAdapt = 1 / 5 := by
    simp only [specAdaptTarget, demoBassAdapt, List.take_succ_cons, List.take_zero]
    rw [hsums]
    rw [if_pos (by norm_num : (3 / 10, (1 : ℝ)).2 / ((1 : ℕ) : ℝ) > 1 / 1000 ∧
      (3 / 10, (1 : ℝ)).1 / ((1 : ℕ) : ℝ) < 4 / 10)]
    norm_num
  refine ⟨hcode, hspec, ?_⟩
  rw [hcode, hspec]
  norm_num

section AdaptAmended

variable {α : Type} [LinearOrderedField α]

/-- C5 (amended): at an adapt boundary with bass enabled, the per-channel
ratio is `avg_low / avg_total` (no square root), averaged over channels;
when the averaged total energy exceeds 0.001 and the averaged ratio is
below 0.35 the target gain is raised by a 0.5 dB step clamped above by
`intensity/100 · 8`; when the averaged ratio is above 0.55 it is lowered
by 0.5 dB clamped below at 0 (and still re-clamped against the maximum);
in every case the energy accumulators are zeroed and the frame counter
reset. -/
theorem bass_adapt_code_rule (bp : BassProcessor α) (hen : bp.enabled = true)
    (hlt : bp.total_energy_accumulator.length = bp.channels)
    (hll : bp.low_energy_accumulator.length = bp.channels) :
    ((adaptSums (bp.sample_count : α)
          (bp.total_energy_accumulator.take bp.channels)
          (bp.low_energy_accumulator.take bp.channels)).2.1 / (bp.channels : α) >
        1 / 1000 →
      (adaptSums (bp.sample_count : α)
          (bp.total_energy_accumulator.take bp.channels)
          (bp.low_energy_accumulator.take bp.channels)).1 / (bp.channels : α) <
        35 / 100 →
      bp.update_adaptive_gain.target_bass_gain =
        min (bp.target_bass_gain + 1 / 2) (bp.intensity / 100 * 8)) ∧
    ((adaptSums (bp.sample_count : α)
          (bp.total_energy_accumulator.take bp.channels)
          (bp.low_energy_accumulator.take bp.channels)).2.1 / (bp.channels : α) >
        1 / 1000 →
      (adaptSums (bp.sample_count : α)
          (bp.total_energy_accumulator.take bp.channels)
          (bp.low_energy_accumulator.take bp.channels)).1 / (bp.channels : α) >
        55 / 100 →
      bp.update_adaptive_gain.target_bass_gain =
        min (max (bp.target_bass_gain - 1 / 2) 0) (bp.intensity / 100 * 8)) ∧
    bp.update_adaptive_gain.sample_count = 0 ∧
    bp.update_adaptive_gain.total_energy_accumulator =
      List.replicate bp.channels 0 ∧
    bp.update_adaptive_gain.low_energy_accumulator =
      List.replicate bp.channels 0 := by
  have hreset : ∀ l : List α, l.length = bp.channels →
      List.replicate (min bp.channels l.length) 0 ++ l.drop bp.channels =
        List.replicate bp.channels (0 : α) := by
    intro l hl
    rw [hl, min_self, List.drop_of_length_le (le_of_eq hl), List.append_nil]
  unfold BassProcessor.update_adaptive_gain
  rw [hen]
  simp only [Bool.not_true, Bool.false_eq_true, if_false, ite_false]
  refine ⟨?_, ?_, trivial, hreset _ hlt, hreset _ hll⟩
  · intro hT hR
    rw [if_pos hT, if_pos hR]
    have hle : min (bp.target_bass_gain + 1 / 2) (bp.intensity / 100 * 8) ≤
        bp.intensity / 100 * 8 := min_le_right _ _
    rw [if_neg (not_lt.mpr hle)]
  · intro hT hR
    have h35 : ¬((adaptSums ((bp.sample_count : α))
        (bp.total_energy_accumulator.take bp.channels)
        (bp.low_energy_accumulator.take bp.channels)).1 / (bp.channels : α) <
          35 / 100) := by
      apply not_lt.mpr
      linarith
    rw [if_pos hT, if_neg h35, if_pos hR]
    rcases le_or_lt (max (bp.target_bass_gain - 1 / 2) 0)
      (bp.intensity / 100 * 8) with hc | hc
    · rw [if_neg (not_lt.mpr hc), min_eq_left hc]
    · rw [if_pos hc, min_eq_right (le_of_lt hc)]

end AdaptAmended

/-- A concrete enabled one-channel state over `ℚ` for the C5 witness
(average total energy 30, ratio 0.8, target gain 3, intensity 50). -/
def demoBassAdaptQ : BassProcessor ℚ :=
  { high_passes := []
    low_shelves := []
    limiters := []
    channels := 1
    sample_rate := 44100
    low_energy_accumulator := [49152]
    total_energy_accumulator := [61440]
    sample_count := 2048
    target_bass_gain := 3
    current_bass_gain := 3
    enabled := true
    intensity := 50 }

/-- C5 witness: at `demoBassAdaptQ` (ratio 0.8 > 0.55, plenty of signal)
the lowering branch applies: the target drops from 3 to 2.5, the
accumulators are zeroed and the counter resets. -/
theorem bass_adapt_code_rule_witness :
    demoBassAdaptQ.enabled = true ∧
    (adaptSums ((demoBassAdaptQ.sample_count : ℚ))
        (demoBassAdaptQ.total_energy_accumulator.take demoBassAdaptQ.channels)
        (demoBassAdaptQ.low_energy_accumulator.take demoBassAdaptQ.channels)).2.1 /
        (demoBassAdaptQ.channels : ℚ) > 1 / 1000 ∧
    (adaptSums ((demoBassAdaptQ.sample_count : ℚ))
        (demoBassAdaptQ.total_energy_accumulator.take demoBassAdaptQ.channels)
        (demoBassAdaptQ.low_energy_accumulator.take demoBassAdaptQ.channels)).1 /
        (demoBassAdaptQ.channels : ℚ) > 55 / 100 ∧
    demoBassAdaptQ.update_adaptive_gain.target_bass_gain = 5 / 2 ∧
    demoBassAdaptQ.update_adaptive_gain.sample_count = 0 := by
  have hT : (adaptSums ((demoBassAdaptQ.sample_count : ℚ))
      (demoBassAdaptQ.total_energy_accumulator.take demoBassAdaptQ.channels)
      (demoBassAdaptQ.low_energy_accumulator.take demoBassAdaptQ.channels)).2.1 /
      (demoBassAdaptQ.channels : ℚ) > 1 / 1000 := by
    simp only [demoBassAdaptQ, adaptSums]
    norm_num
  have hR : (adaptSums ((demoBassAdaptQ.sample_count : ℚ))
      (demoBassAdaptQ.total_energy_accumulator.take demoBassAdaptQ.channels)
      (demoBassAdaptQ.low_energy_accumulator.take demoBassAdaptQ.channels)).1 /
      (demoBassAdaptQ.channels : ℚ) > 55 / 100 := by
    simp only [demoBassAdaptQ, adaptSums]
    norm_num
  have h := bass_adapt_code_rule demoBassAdaptQ rfl rfl rfl
  refine ⟨rfl, hT, hR, ?_, h.2.2.1⟩
  rw [h.2.1 hT hR]
  simp only [demoBassAdaptQ]
  norm_num

end AdaptClaims

section ResamplerDef

variable {α : Type} [LinearOrderedField α]

/-- `dsp/resampler.rs`, `Resampler`: the wrapped `rubato` FFT converter is
an external library; its per-chunk conversion (deinterleave, FFT
resample, reinterleave) is abstracted as `kernel` on one interleaved
chunk.  `buffer` is the internal input staging buffer. -/
structure Resampler (α : Type) where
  kernel : List α → List α
  channels : ℕ
  chunk_size : ℕ
  buffer : List α

/-- The `while self.buffer.len() >= self.chunk_size * self.channels` loop
of `Resampler::process`, with explicit fuel (any fuel of at least
`buffer.length` iterations is exhaustive when the chunk is non-empty,
since each iteration drains `chunk_size · channels ≥ 1` samples). -/
def Resampler.drain : ℕ → Resampler α → List α → Resampler α × List α
  | 0, r, out => (r, out)
  | fuel + 1, r, out =>
    if r.chunk_size * r.channels ≤ r.buffer.length then
      Resampler.drain fuel
        { r with buffer := r.buffer.drop (r.chunk_size * r.channels) }
        (out ++ r.kernel (r.buffer.take (r.chunk_size * r.channels)))
    else (r, out)

/-- `Resampler::process(input)`: stage the input, then convert full
chunks. -/
def Resampler.process (r : Resampler α) (input : List α) :
    Resampler α × List α :=
  Resampler.drain ((r.buffer ++ input).length + 1)
    { r with buffer := r.buffer ++ input } []

/-- `Resampler::flush()`: nothing to do on empty staging; otherwise pad
the staged remainder to one full chunk with zero samples and process. -/
def Resampler.flush (r : Resampler α) : Resampler α × List α :=
  if r.buffer.isEmpty then (r, [])
  else
    let remaining_frames := r.buffer.length / r.channels
    let padding_needed := (r.chunk_size - remaining_frames) * r.channels
    Resampler.process
      { r with buffer := r.buffer ++ List.replicate padding_needed 0 } []

/-- `Resampler::new(source_rate, target_rate, channels, chunk_size)`: the
`rubato::Fft` construction is external and abstracted as `kernel`; the
staging buffer starts empty. -/
def Resampler.new (kernel : List α → List α) (channels chunk_size : ℕ) :
    Resampler α :=
  { kernel := kernel
    channels := channels
    chunk_size := chunk_size
    buffer := [] }

end ResamplerDef

section ResamplerClaims

variable {α : Type} [LinearOrderedField α]

/-- C8: `flush()` on an empty staging buffer — in particular immediately
after construction — emits no samples and leaves the state (hence the
staging buffer) unchanged, so it is idempotent in that situation. -/
theorem resampler_flush_empty_idempotent (r : Resampler α)
    (h : r.buffer = []) :
    r.flush = (r, []) ∧
    ∀ kernel channels chunk_size,
      (Resampler.new (α := α) kernel channels chunk_size).flush =
        (Resampler.new kernel channels chunk_size, []) := by
  constructor
  · unfold Resampler.flush
    rw [if_pos (show r.buffer.isEmpty = true by rw [h]; rfl)]
  · intro kernel channels chunk_size
    unfold Resampler.flush
    rw [if_pos (show (Resampler.new (α := α) kernel channels
      chunk_size).buffer.isEmpty = true from rfl)]

/-- C8 witness: a concrete freshly constructed resampler (identity
kernel, 2 channels, 1024-frame chunks) flushes to no output and an
unchanged state, twice over. -/
theorem resampler_flush_empty_idempotent_witness :
    (Resampler.new (α := ℚ) (fun l => l) 2 1024).buffer = [] ∧
    (Resampler.new (α := ℚ) (fun l => l) 2 1024).flush =
      (Resampler.new (fun l => l) 2 1024, []) ∧
    ((Resampler.new (α := ℚ) (fun l => l) 2 1024).flush.1).flush =
      (Resampler.new (fun l => l) 2 1024, []) := by
  have h := (resampler_flush_empty_idempotent
    (Resampler.new (α := ℚ) (fun l => l) 2 1024) rfl).1
  refine ⟨rfl, h, ?_⟩
  rw [h]
  exact h

end ResamplerClaims

section WorkerDef

variable {α : Type} [LinearOrderedField α]

/-- `AudioBufferProducer::push_slice` (`buffer/mod.rs`): append as many
samples as fit into the ring's free space, returning the new ring
contents and the number of samples actually stored. -/
def push_slice (cap : ℕ) (ring : List α) (xs : List α) : List α × ℕ :=
  (ring ++ xs.take (cap - ring.length), min xs.length (cap - ring.length))

/-- The resampling stage of the producer loop (`engine.rs` lines 146-153):
feed the decoded block through the resampler when one is present,
otherwise pass it through. -/
def resampleStage (rs : Option (Resampler α)) (samples : List α) :
    Option (Resampler α) × List α :=
  match rs with
  | some r =>
    let p := r.process samples
    (some p.1, p.2)
  | none => (none, samples)

/-- The producer worker's state during one decode iteration: resampler,
bass processor, the producer's view of the ring (contents and capacity),
the tail of a block not yet pushed (subject to the retry loop), the
cancellation flag (`is_decoding`) and the shared clock. -/
structure WorkerState (α : Type) where
  resampler : Option (Resampler α)
  bass_processor : BassProcessor α
  ring : List α
  cap : ℕ
  pending : List α
  is_decoding : Bool
  clock : Clock

/-- One decode iteration of the producer worker's main loop (`engine.rs`
lines 145-200), after command draining and the backpressure check, on the
result of `decoder.decode_next()`: a decoded block is resampled (when a
resampler is present), processed by `bass_processor.process`, and pushed
(`push_slice`; an unpushed tail becomes `pending` for the retry loop);
`None` (EOF or fatal error) flushes the resampler when present, pushes
the flushed tail, clears the cancellation flag and exits — the clock is
not touched on this path. -/
def workerDecodeStep (co : α → α → BiquadFilter α → BiquadFilter α)
    (w : WorkerState α) (decoded : Option (List α)) : WorkerState α :=
  match decoded with
  | some samples =>
    let rp := resampleStage w.resampler samples
    let bp := w.bass_processor.process co rp.2
    let pr := push_slice w.cap w.ring bp.2
    { w with
      resampler := rp.1
      bass_processor := bp.1
      ring := pr.1
      pending := bp.2.drop pr.2 }
  | none =>
    let rp : Option (Resampler α) × List α :=
      match w.resampler with
      | some r =>
        let f := r.flush
        (some f.1, f.2)
      | none => (none, [])
    let pr := push_slice w.cap w.ring rp.2
    { w with
      resampler := rp.1
      ring := pr.1
      is_decoding := false }

end WorkerDef

section WorkerClaims

variable {α : Type} [LinearOrderedField α]

/-- A neutral one-channel bass processor over `ℚ` (identity biquads, a
mild limiter), used by concrete worker states. -/
def demoBassQ1 : BassProcessor ℚ :=
  { high_passes := [{ b0 := 1, b1 := 0, b2 := 0, a1 := 0, a2 := 0, z1 := 0, z2 := 0 }]
    low_shelves := [{ b0 := 1, b1 := 0, b2 := 0, a1 := 0, a2 := 0, z1 := 0, z2 := 0 }]
    limiters := [{ threshold := 9 / 10, attack_coeff := 1 / 2,
                   release_coeff := 1 / 2, envelope := 0, gain := 1,
                   smoothing_coeff := 1 / 2 }]
    channels := 1
    sample_rate := 48000
    low_energy_accumulator := [0]
    total_energy_accumulator := [0]
    sample_count := 0
    target_bass_gain := 0
    current_bass_gain := 0
    enabled := false
    intensity := 50 }

/-- A concrete worker state at EOF: a resampler with one staged sample
(identity kernel, 1 channel, 2-frame chunks), room in the ring, the
worker still running, the clock `Playing` with the modelled `eos` flag
down. -/
def demoWorkerEof : WorkerState ℚ :=
  { resampler := some { kernel := fun l => l, channels := 1, chunk_size := 2,
                        buffer := [1] }
    bass_processor := demoBassQ1
    ring := []
    cap := 16
    pending := []
    is_decoding := true
    clock := demoPlaying }

/-- C2 (code evaluated at the failing input): when `decode_next()` returns
`None`, the worker does flush the resampler and push the flushed tail and
does clear its cancellation flag — but it exits without setting any
end-of-stream flag on the Clock (`engine.rs` lines 190-200 contain no such
store, and `clock/mod.rs` has no `eos` field at all even though
`cpal_backend.rs` reads `clock.is_eos()`).  Consequently a later callback
invocation that pops 0 samples leaves the state `Playing` forever instead
of transitioning to `Stopped`. -/
theorem worker_eof_never_sets_eos :
    (workerDecodeStep (fun _ _ f => f) demoWorkerEof none).ring = [1, 0] ∧
    (workerDecodeStep (fun _ _ f => f) demoWorkerEof none).is_decoding = false ∧
    (workerDecodeStep (fun _ _ f => f) demoWorkerEof none).clock.is_eos = false ∧
    (process_audio (fun x : ℚ => x) 4 ([] : List ℚ)
        (workerDecodeStep (fun _ _ f => f) demoWorkerEof none).clock).2.2.state =
      PlaybackState.Playing := by
  refine ⟨?_, rfl, rfl, rfl⟩
  decide

/-- C1 (amended): in the producer worker's decode iteration, a decoded
block is — after optional resampling — processed by the bass processor
(`bass_processor.process`, internally per channel: high-pass, adaptive
low-shelf, −0.1 dBFS limiter) and nothing else before its samples enter
the ring: whenever the block fits the free space, the ring is extended by
exactly the bass-processed resampled block, nothing stays pending, and
the bass state advances accordingly.  (The `DspChain` high-shelf EQ and
chain limiter of `dsp_chain.rs` are not invoked by the worker; see the
counterexample.) -/
theorem worker_pushes_bass_processed_block
    (co : α → α → BiquadFilter α → BiquadFilter α) (w : WorkerState α)
    (samples : List α)
    (hfit : ((w.bass_processor.process co
        (resampleStage w.resampler samples).2).2).length ≤
      w.cap - w.ring.length) :
    (workerDecodeStep co w (some samples)).ring =
      w.ring ++ (w.bass_processor.process co
        (resampleStage w.resampler samples).2).2 ∧
    (workerDecodeStep co w (some samples)).pending = [] ∧
    (workerDecodeStep co w (some samples)).bass_processor =
      (w.bass_processor.process co (resampleStage w.resampler samples).2).1 := by
  unfold workerDecodeStep push_slice
  refine ⟨?_, ?_, rfl⟩
  · dsimp only
    rw [List.take_of_length_le hfit]
  · dsimp only
    rw [min_eq_left hfit]
    exact List.drop_length _

/-- C1 witness: a concrete decode iteration (no resampler, the neutral
one-channel bass processor, a one-sample block of silence, free ring
space): the pushed contents are exactly the bass-processed block. -/
theorem worker_pushes_bass_processed_block_witness :
    ((demoBassQ1.process (fun _ _ f => f)
        (resampleStage (none : Option (Resampler ℚ)) [(0 : ℚ)]).2).2).length ≤
      8 - ([] : List ℚ).length ∧
    (workerDecodeStep (fun _ _ f => f)
        { resampler := none, bass_processor := demoBassQ1, ring := [],
          cap := 8, pending := [], is_decoding := true,
          clock := demoPlaying } (some [(0 : ℚ)])).ring = [(0 : ℚ)] := by
  have hrs : (resampleStage (none : Option (Resampler ℚ)) [(0 : ℚ)]).2 = [0] := rfl
  have hval : (demoBassQ1.process (fun _ _ f => f) [(0 : ℚ)]).2 = [0] := by
    norm_num [BassProcessor.process, BassProcessor.update_filters, splitFrames,
      chunksGo, BassProcessor.processFrames, BassProcessor.processFrame,
      bassFrame, BiquadFilter.process, Limiter.process, demoBassQ1]
  have hfit : ((demoBassQ1.process (fun _ _ f => f)
      (resampleStage (none : Option (Resampler ℚ)) [(0 : ℚ)]).2).2).length ≤
      8 - ([] : List ℚ).length := by
    rw [hrs, hval]
    simp
  refine ⟨hfit, ?_⟩
  have h := (worker_pushes_bass_processed_block (fun _ _ f => f)
    { resampler := none, bass_processor := demoBassQ1, ring := [],
      cap := 8, pending := [], is_decoding := true,
      clock := demoPlaying } [(0 : ℚ)] hfit).1
  rw [h]
  show [] ++ (demoBassQ1.process (fun _ _ f => f)
    (resampleStage (none : Option (Resampler ℚ)) [(0 : ℚ)]).2).2 = [(0 : ℚ)]
  rw [hrs, hval]
  rfl

end WorkerClaims

section StageDecomp

variable {α : Type} [LinearOrderedField α]

/-- Frame-shaped variant of `biquadFrames` (list of per-frame outputs
instead of their concatenation); used to relate the fused bass loop to
stage-by-stage processing. -/
def biquadFramesF : List (BiquadFilter α) → List (List α) →
    List (BiquadFilter α) × List (List α)
  | fs, [] => (fs, [])
  | fs, f :: rest =>
    let r := biquadFrame fs f
    let rr := biquadFramesF r.1 rest
    (rr.1, r.2 :: rr.2)

/-- Frame-shaped variant of `limiterFrames`. -/
def limiterFramesF : List (Limiter α) → List (List α) →
    List (Limiter α) × List (List α)
  | ls, [] => (ls, [])
  | ls, f :: rest =>
    let r := limiterFrame ls f
    let rr := limiterFramesF r.1 rest
    (rr.1, r.2 :: rr.2)

lemma biquadFrame_state_length (fs : List (BiquadFilter α)) (xs : List α) :
    (biquadFrame fs xs).1.length = fs.length := by
  induction fs generalizing xs with
  | nil => cases xs <;> rfl
  | cons f fs ih =>
    cases xs with
    | nil => rfl
    | cons x xs => simp [biquadFrame, ih]

lemma biquadFrame_out_length (fs : List (BiquadFilter α)) (xs : List α) :
    (biquadFrame fs xs).2.length = min fs.length xs.length := by
  induction fs generalizing xs with
  | nil => cases xs <;> rfl
  | cons f fs ih =>
    cases xs with
    | nil => rfl
    | cons x xs =>
      simp [biquadFrame, ih]
      omega

lemma limiterFrame_state_length (ls : List (Limiter α)) (xs : List α) :
    (limiterFrame ls xs).1.length = ls.length := by
  induction ls generalizing xs with
  | nil => cases xs <;> rfl
  | cons l ls ih =>
    cases xs with
    | nil => rfl
    | cons x xs => simp [limiterFrame, ih]

lemma limiterFrame_out_length (ls : List (Limiter α)) (xs : List α) :
    (limiterFrame ls xs).2.length = min ls.length xs.length := by
  induction ls generalizing xs with
  | nil => cases xs <;> rfl
  | cons l ls ih =>
    cases xs with
    | nil => rfl
    | cons x xs =>
      simp [limiterFrame, ih]
      omega

/-- The fused per-frame bass loop coincides with high-pass, low-shelf and
limiter stages run in sequence: filter states line up stage by stage, the
accumulator lists keep their lengths, and the frame output is the
limiter's (the limiter is the final per-sample stage). -/
lemma bassFrame_decomp :
    ∀ (hs ss : List (BiquadFilter α)) (ls : List (Limiter α)) (ts los xs : List α),
      hs.length = ss.length → ss.length = ls.length → ls.length = ts.length →
      ts.length = los.length →
      (bassFrame hs ss ls ts los xs).1 = (biquadFrame hs xs).1 ∧
      (bassFrame hs ss ls ts los xs).2.1 =
        (biquadFrame ss (biquadFrame hs xs).2).1 ∧
      (bassFrame hs ss ls ts los xs).2.2.1 =
        (limiterFrame ls (biquadFrame ss (biquadFrame hs xs).2).2).1 ∧
      (bassFrame hs ss ls ts los xs).2.2.2.1.length = ts.length ∧
      (bassFrame hs ss ls ts los xs).2.2.2.2.1.length = los.length ∧
      (bassFrame hs ss ls ts los xs).2.2.2.2.2 =
        (limiterFrame ls (biquadFrame ss (biquadFrame hs xs).2).2).2 := by
  intro hs
  induction hs with
  | nil =>
    intro ss ls ts los xs h1 h2 h3 h4
    have hss : ss = [] := List.length_eq_zero.mp h1.symm
    have hls : ls = [] := List.length_eq_zero.mp (h1 ▸ h2).symm
    have hts : ts = [] := List.length_eq_zero.mp ((h1 ▸ h2) ▸ h3).symm
    have hlos : los = [] := List.length_eq_zero.mp (((h1 ▸ h2) ▸ h3) ▸ h4).symm
    subst hss hls hts hlos
    cases xs <;> exact ⟨rfl, rfl, rfl, rfl, rfl, rfl⟩
  | cons h hs ih =>
    intro ss ls ts los xs h1 h2 h3 h4
    cases ss with
    | nil => exact absurd h1 (by simp)
    | cons s ss =>
    cases ls with
    | nil => exact absurd h2 (by simp)
    | cons l ls =>
    cases ts with
    | nil => exact absurd h3 (by simp)
    | cons t ts =>
    cases los with
    | nil => exact absurd h4 (by simp)
    | cons lo los =>
    cases xs with
    | nil => exact ⟨rfl, rfl, rfl, rfl, rfl, rfl⟩
    | cons x xs =>
      have hrec := ih ss ls ts los xs (by simpa using h1) (by simpa using h2)
        (by simpa using h3) (by simpa using h4)
      simp only [bassFrame, biquadFrame, limiterFrame]
      refine ⟨?_, ?_, ?_, ?_, ?_, ?_⟩
      · simp [hrec.1]
      · simp [hrec.2.1]
      · simp [hrec.1, hrec.2.1, hrec.2.2.1, hrec.2.2.2.2.2]
      · simp [hrec.2.2.2.1]
      · simp [hrec.2.2.2.2.1]
      · simp [hrec.1, hrec.2.1, hrec.2.2.1, hrec.2.2.2.2.2]

lemma biquadFrames_flatten (fs : List (BiquadFilter α)) (F : List (List α)) :
    biquadFrames fs F =
      ((biquadFramesF fs F).1, (biquadFramesF fs F).2.flatten) := by
  induction F generalizing fs with
  | nil => rfl
  | cons f rest ih =>
    simp only [biquadFrames, biquadFramesF, ih, List.flatten_cons]

lemma limiterFrames_flatten (ls : List (Limiter α)) (F : List (List α)) :
    limiterFrames ls F =
      ((limiterFramesF ls F).1, (limiterFramesF ls F).2.flatten) := by
  induction F generalizing ls with
  | nil => rfl
  | cons f rest ih =>
    simp only [limiterFrames, limiterFramesF, ih, List.flatten_cons]

lemma biquadFramesF_state_length (fs : List (BiquadFilter α))
    (F : List (List α)) : (biquadFramesF fs F).1.length = fs.length := by
  induction F generalizing fs with
  | nil => rfl
  | cons f rest ih =>
    simp only [biquadFramesF]
    rw [ih, biquadFrame_state_length]

lemma biquadFramesF_out_lengths (c : ℕ) (F : List (List α)) :
    ∀ fs : List (BiquadFilter α), fs.length = c → (∀ f ∈ F, f.length = c) →
      ∀ g ∈ (biquadFramesF fs F).2, g.length = c := by
  induction F with
  | nil =>
    intro fs _ _ g hg
    simp [biquadFramesF] at hg
  | cons f rest ih =>
    intro fs hfs hF g hg
    simp only [biquadFramesF, List.mem_cons] at hg
    rcases hg with hg | hg
    · subst hg
      rw [biquadFrame_out_length, hfs, hF f (List.mem_cons_self f rest), min_self]
    · exact ih (biquadFrame fs f).1
        (by rw [biquadFrame_state_length, hfs])
        (fun x hx => hF x (List.mem_cons_of_mem f hx)) g hg

lemma chunksGo_spec {β : Type} (c : ℕ) (_hc : 0 < c) :
    ∀ (n : ℕ) (l : List β), c * n ≤ l.length →
      (∀ f ∈ (chunksGo c n l).1, f.length = c) ∧
      (chunksGo c n l).1.flatten ++ (chunksGo c n l).2 = l ∧
      (chunksGo c n l).2.length = l.length - c * n := by
  intro n
  induction n with
  | zero =>
    intro l _
    exact ⟨by intro f hf; simp [chunksGo] at hf, rfl, by simp [chunksGo]⟩
  | succ n ih =>
    intro l hlen
    have hc_le : c ≤ l.length := by
      calc c = c * 1 := by ring
        _ ≤ c * (n + 1) := by exact Nat.mul_le_mul_left c (by omega)
        _ ≤ l.length := hlen
    have hexp : c * (n + 1) = c * n + c := by ring
    have hdrop : c * n ≤ (l.drop c).length := by
      rw [List.length_drop]
      omega
    have hrec := ih (l.drop c) hdrop
    simp only [chunksGo]
    refine ⟨?_, ?_, ?_⟩
    · intro f hf
      simp only [List.mem_cons] at hf
      rcases hf with hf | hf
      · subst hf
        rw [List.length_take]
        exact min_eq_left hc_le
      · exact hrec.1 f hf
    · rw [List.flatten_cons, List.append_assoc, hrec.2.1,
        List.take_append_drop]
    · rw [hrec.2.2, List.length_drop]
      omega

lemma splitFrames_spec {β : Type} (c : ℕ) (hc : 0 < c) (l : List β) :
    (∀ f ∈ (splitFrames c l).1, f.length = c) ∧
    (splitFrames c l).1.flatten ++ (splitFrames c l).2 = l ∧
    (splitFrames c l).2.length < c := by
  have hmul : c * (l.length / c) ≤ l.length := by
    rw [mul_comm]
    exact Nat.div_mul_le_self _ _
  have h := chunksGo_spec c hc (l.length / c) l hmul
  refine ⟨h.1, h.2.1, ?_⟩
  show (chunksGo c (l.length / c) l).2.length < c
  rw [h.2.2]
  have := Nat.mod_add_div l.length c
  have hmod := Nat.mod_lt l.length hc
  omega

lemma splitFrames_recover {β : Type} (c : ℕ) (hc : 0 < c) :
    ∀ (F : List (List β)) (rem : List β), (∀ f ∈ F, f.length = c) →
      rem.length < c → splitFrames c (F.flatten ++ rem) = (F, rem) := by
  intro F
  induction F with
  | nil =>
    intro rem _ hrem
    unfold splitFrames
    rw [List.flatten_nil, List.nil_append, Nat.div_eq_of_lt hrem]
    rfl
  | cons f F ih =>
    intro rem hF hrem
    have hf : f.length = c := hF f (List.mem_cons_self f F)
    have htail : ∀ g ∈ F, g.length = c :=
      fun g hg => hF g (List.mem_cons_of_mem f hg)
    have hihx := ih rem htail hrem
    unfold splitFrames at hihx ⊢
    have hlen : (f :: F).flatten ++ rem = f ++ (F.flatten ++ rem) := by
      rw [List.flatten_cons, List.append_assoc]
    rw [hlen]
    have hlen2 : (f ++ (F.flatten ++ rem)).length =
        (F.flatten ++ rem).length + c := by
      rw [List.length_append, hf]
      omega
    rw [hlen2, Nat.add_div_right _ hc]
    simp only [chunksGo]
    have htake : (f ++ (F.flatten ++ rem)).take c = f := by
      rw [← hf]
      exact List.take_left f _
    have hdrop : (f ++ (F.flatten ++ rem)).drop c = F.flatten ++ rem := by
      rw [← hf]
      exact List.drop_left f _
    rw [htake, hdrop, hihx]

/-- The fused frame loop of `BassProcessor::process` equals the
stage-by-stage (high-pass, low-shelf, limiter) frame maps: the stage
states line up frame by frame and the concatenated output is the final
limiter stage's. -/
lemma processFrames_decomp :
    ∀ (F : List (List α)) (bp : BassProcessor α),
      bp.high_passes.length = bp.low_shelves.length →
      bp.low_shelves.length = bp.limiters.length →
      bp.limiters.length = bp.total_energy_accumulator.length →
      bp.total_energy_accumulator.length = bp.low_energy_accumulator.length →
      (bp.processFrames F).2 =
        (limiterFramesF bp.limiters
          (biquadFramesF bp.low_shelves
            (biquadFramesF bp.high_passes F).2).2).2.flatten := by
  intro F
  induction F with
  | nil => intro bp _ _ _ _; rfl
  | cons f rest ih =>
    intro bp h1 h2 h3 h4
    have hd := bassFrame_decomp bp.high_passes bp.low_shelves bp.limiters
      bp.total_energy_accumulator bp.low_energy_accumulator f h1 h2 h3 h4
    simp only [BassProcessor.processFrames, BassProcessor.processFrame]
    have hrec := ih
      { bp with
        high_passes := (bassFrame bp.high_passes bp.low_shelves bp.limiters
          bp.total_energy_accumulator bp.low_energy_accumulator f).1
        low_shelves := (bassFrame bp.high_passes bp.low_shelves bp.limiters
          bp.total_energy_accumulator bp.low_energy_accumulator f).2.1
        limiters := (bassFrame bp.high_passes bp.low_shelves bp.limiters
          bp.total_energy_accumulator bp.low_energy_accumulator f).2.2.1
        total_energy_accumulator := (bassFrame bp.high_passes bp.low_shelves
          bp.limiters bp.total_energy_accumulator bp.low_energy_accumulator
          f).2.2.2.1
        low_energy_accumulator := (bassFrame bp.high_passes bp.low_shelves
          bp.limiters bp.total_energy_accumulator bp.low_energy_accumulator
          f).2.2.2.2.1
        sample_count := bp.sample_count + 1 }
      (by
        show (bassFrame _ _ _ _ _ _).1.length = (bassFrame _ _ _ _ _ _).2.1.length
        rw [hd.1, hd.2.1, biquadFrame_state_length, biquadFrame_state_length]
        exact h1)
      (by
        show (bassFrame _ _ _ _ _ _).2.1.length =
          (bassFrame _ _ _ _ _ _).2.2.1.length
        rw [hd.2.1, hd.2.2.1, biquadFrame_state_length,
          limiterFrame_state_length]
        exact h2)
      (by
        show (bassFrame _ _ _ _ _ _).2.2.1.length =
          (bassFrame _ _ _ _ _ _).2.2.2.1.length
        rw [hd.2.2.1, hd.2.2.2.1, limiterFrame_state_length]
        exact h3)
      (by
        show (bassFrame _ _ _ _ _ _).2.2.2.1.length =
          (bassFrame _ _ _ _ _ _).2.2.2.2.1.length
        rw [hd.2.2.2.1, hd.2.2.2.2.1]
        exact h4)
    dsimp only at hrec ⊢
    rw [hrec, hd.2.2.2.2.2]
    -- align the staged states frame by frame
    simp only [biquadFramesF, limiterFramesF, List.flatten_cons]
    rw [hd.1, hd.2.1, hd.2.2.1]

lemma splitFrames_zero {β : Type} (l : List β) : splitFrames 0 l = ([], l) := by
  unfold splitFrames
  rw [Nat.div_zero]
  rfl

/-- `BassProcessor`'s fused loop over a flat slice equals the three
chunk-level stage maps in sequence (high-pass bank, low-shelf bank,
limiter bank), partial trailing frame included. -/
lemma bass_core_stage_decomp (bp : BassProcessor α) (samples : List α)
    (hh : bp.high_passes.length = bp.channels)
    (hsl : bp.low_shelves.length = bp.channels)
    (hlm : bp.limiters.length = bp.channels)
    (hta : bp.total_energy_accumulator.length = bp.channels)
    (hla : bp.low_energy_accumulator.length = bp.channels) :
    (bp.processFrames (splitFrames bp.channels samples).1).2 ++
      (splitFrames bp.channels samples).2 =
    (limiterChunkMap bp.channels bp.limiters
      (biquadChunkMap bp.channels bp.low_shelves
        (biquadChunkMap bp.channels bp.high_passes samples).2).2).2 := by
  rcases Nat.eq_zero_or_pos bp.channels with hc | hc
  · rw [hc]
    simp [splitFrames_zero, biquadChunkMap, limiterChunkMap, biquadFrames,
      limiterFrames, BassProcessor.processFrames]
  · obtain ⟨hFlen, hcat, hremlt⟩ := splitFrames_spec bp.channels hc samples
    have hHlen := biquadFramesF_out_lengths bp.channels
      (splitFrames bp.channels samples).1 bp.high_passes hh hFlen
    have hSlen := biquadFramesF_out_lengths bp.channels
      (biquadFramesF bp.high_passes (splitFrames bp.channels samples).1).2
      bp.low_shelves hsl hHlen
    have h1 : (biquadChunkMap bp.channels bp.high_passes samples).2 =
        (biquadFramesF bp.high_passes
          (splitFrames bp.channels samples).1).2.flatten ++
          (splitFrames bp.channels samples).2 := by
      unfold biquadChunkMap
      dsimp only
      rw [biquadFrames_flatten]
    have h2 : splitFrames bp.channels
        ((biquadFramesF bp.high_passes
          (splitFrames bp.channels samples).1).2.flatten ++
          (splitFrames bp.channels samples).2) =
        ((biquadFramesF bp.high_passes (splitFrames bp.channels samples).1).2,
         (splitFrames bp.channels samples).2) :=
      splitFrames_recover bp.channels hc _ _ hHlen hremlt
    have h3 : (biquadChunkMap bp.channels bp.low_shelves
        ((biquadFramesF bp.high_passes
          (splitFrames bp.channels samples).1).2.flatten ++
          (splitFrames bp.channels samples).2)).2 =
        (biquadFramesF bp.low_shelves
          (biquadFramesF bp.high_passes
            (splitFrames bp.channels samples).1).2).2.flatten ++
          (splitFrames bp.channels samples).2 := by
      unfold biquadChunkMap
      dsimp only
      rw [h2]
      dsimp only
      rw [biquadFrames_flatten]
    have h4 : splitFrames bp.channels
        ((biquadFramesF bp.low_shelves
          (biquadFramesF bp.high_passes
            (splitFrames bp.channels samples).1).2).2.flatten ++
          (splitFrames bp.channels samples).2) =
        ((biquadFramesF bp.low_shelves
          (biquadFramesF bp.high_passes
            (splitFrames bp.channels samples).1).2).2,
         (splitFrames bp.channels samples).2) :=
      splitFrames_recover bp.channels hc _ _ hSlen hremlt
    rw [h1, h3]
    unfold limiterChunkMap
    dsimp only
    rw [h4]
    dsimp only
    rw [limiterFrames_flatten]
    rw [processFrames_decomp (splitFrames bp.channels samples).1 bp
      (hh.trans hsl.symm) (hsl.trans hlm.symm) (hlm.trans hta.symm)
      (hta.trans hla.symm)]

/-- `update_filters` is a no-op on a freshly constructed bass processor
(target and current gain are both zero, below the smoothing trigger). -/
lemma update_filters_new (sr : ℝ) (ch : ℕ) :
    (BassProcessor.new sr ch).update_filters realShelfUpdate =
      BassProcessor.new sr ch := by
  unfold BassProcessor.update_filters
  rw [if_neg]
  show ¬(|(BassProcessor.new sr ch).target_bass_gain -
    (BassProcessor.new sr ch).current_bass_gain| > 1 / 1000)
  have h1 : (BassProcessor.new sr ch).target_bass_gain = 0 := rfl
  have h2 : (BassProcessor.new sr ch).current_bass_gain = 0 := rfl
  rw [h1, h2]
  norm_num

/-- C9: for every sample rate, channel count and input block, the output
of `BassProcessor::process` on a fresh processor equals the input run
through the per-channel high-pass bank, then the per-channel low-shelf
bank, then — as the final stage — the per-channel limiter bank; and every
one of the processor's internal limiters was built with the −0.1 dB
threshold `10^(-0.1/20)`.  So every sample leaving the bass processor is
peak-limited even when the surrounding `DspChain` is not used. -/
theorem bass_internal_limiter_final_stage (sr : ℝ) (ch : ℕ)
    (samples : List ℝ) :
    ((BassProcessor.new sr ch).process realShelfUpdate samples).2 =
      (limiterChunkMap ch (List.replicate ch (Limiter.new (-(1 / 10)) sr))
        (biquadChunkMap ch
          (List.replicate ch
            (BiquadFilter.new FilterType.LowShelf sr 100 (7 / 10) 0))
          (biquadChunkMap ch
            (List.replicate ch
              (BiquadFilter.new FilterType.HighPass sr 30 (707 / 1000) 0))
            samples).2).2).2 ∧
    ∀ l ∈ (BassProcessor.new sr ch).limiters,
      l.threshold = (10 : ℝ) ^ (-(1 / 10) / 20 : ℝ) := by
  constructor
  · show (BassProcessor.process realShelfUpdate (BassProcessor.new sr ch)
      samples).2 = _
    unfold BassProcessor.process
    rw [update_filters_new]
    exact bass_core_stage_decomp (BassProcessor.new sr ch) samples
      (List.length_replicate _ _) (List.length_replicate _ _)
      (List.length_replicate _ _) (List.length_replicate _ _)
      (List.length_replicate _ _)
  · intro l hl
    rw [List.eq_of_mem_replicate hl]
    rfl

end StageDecomp

section ChainCounterexample

/-- The first-sample output factor of the fresh 30 Hz high-pass at
48 kHz: `b0/a0 = ((1+cos ω)/2)/(1+α)`, `ω = π/800`. -/
noncomputable def hpFirstFactor : ℝ :=
  (1 + Real.cos (Real.pi / 800)) / 2 /
    (1 + Real.sin (Real.pi / 800) / (2 * (707 / 1000)))

lemma hp48_omega : 2 * Real.pi * 30 / 48000 = Real.pi / 800 := by ring

lemma hp48_cos_pos : 0 < Real.cos (Real.pi / 800) := by
  have hpi := Real.pi_pos
  apply Real.cos_pos_of_mem_Ioo
  constructor
  · have : (0 : ℝ) < Real.pi / 800 := by positivity
    nlinarith
  · have : Real.pi / 800 < Real.pi / 2 :=
      div_lt_div_of_pos_left hpi (by norm_num) (by norm_num)
    exact this

lemma hp48_sin_nonneg : 0 ≤ Real.sin (Real.pi / 800) := by
  have hpi := Real.pi_pos
  apply Real.sin_nonneg_of_nonneg_of_le_pi
  · positivity
  · nlinarith

lemma hpFirstFactor_pos : 0 < hpFirstFactor := by
  unfold hpFirstFactor
  have h1 := hp48_cos_pos
  have h2 := hp48_sin_nonneg
  have hden : 0 < 1 + Real.sin (Real.pi / 800) / (2 * (707 / 1000)) := by
    positivity
  apply div_pos _ hden
  nlinarith

lemma hpFirstFactor_le_one : hpFirstFactor ≤ 1 := by
  unfold hpFirstFactor
  have h1 := Real.cos_le_one (Real.pi / 800)
  have h2 := hp48_sin_nonneg
  have hden : 0 < 1 + Real.sin (Real.pi / 800) / (2 * (707 / 1000)) := by
    positivity
  rw [div_le_one hden]
  have h3 : 0 ≤ Real.sin (Real.pi / 800) / (2 * (707 / 1000)) := by positivity
  linarith

lemma hp48_first_out (x : ℝ) :
    ((BiquadFilter.new FilterType.HighPass 48000 30 (707 / 1000) 0).process
      x).2 = hpFirstFactor * x := by
  unfold BiquadFilter.new BiquadFilter.update BiquadFilter.process
    hpFirstFactor
  dsimp only
  rw [hp48_omega]
  ring

lemma lowshelf48_zero_gain_out (x : ℝ) :
    ((BiquadFilter.new FilterType.LowShelf 48000 100 (7 / 10) 0).process
      x).2 = x := by
  have homega : 2 * Real.pi * 100 / 48000 = Real.pi / 240 := by ring
  have hsin : 0 ≤ Real.sin (Real.pi / 240) := by
    have hpi := Real.pi_pos
    apply Real.sin_nonneg_of_nonneg_of_le_pi
    · positivity
    · nlinarith
  have ha : (10 : ℝ) ^ ((0 : ℝ) / 40) = 1 := by
    norm_num
  unfold BiquadFilter.new BiquadFilter.update BiquadFilter.process
  dsimp only
  rw [homega, ha]
  have hsq : 0 ≤ Real.sqrt ((1 + 1 / 1) * (1 / (7 / 10) - 1) + 2) :=
    Real.sqrt_nonneg _
  set s : ℝ := Real.sin (Real.pi / 240)
  set c : ℝ := Real.cos (Real.pi / 240)
  set r : ℝ := Real.sqrt ((1 + 1 / 1) * (1 / (7 / 10) - 1) + 2)
  have hb0 : (1 : ℝ) * ((1 + 1) - (1 - 1) * c + s / 2 * r) =
      (1 + 1) + (1 - 1) * c + s / 2 * r := by ring
  have hden : (0 : ℝ) < (1 + 1) + (1 - 1) * c + s / 2 * r := by
    have : 0 ≤ s / 2 * r := by positivity
    nlinarith
  rw [hb0, div_self (ne_of_gt hden)]
  ring

lemma eqA_pos : 0 < (10 : ℝ) ^ (-(3 / 2) / 40 : ℝ) :=
  Real.rpow_pos_of_pos (by norm_num) _

lemma eqA_lt_one : (10 : ℝ) ^ (-(3 / 2) / 40 : ℝ) < 1 :=
  Real.rpow_lt_one_of_one_lt_of_neg (by norm_num) (by norm_num)

lemma highshelf48_first_out (x : ℝ) :
    ((BiquadFilter.new FilterType.HighShelf 48000 12000 (7 / 10)
      (-(3 / 2))).process x).2 = (10 : ℝ) ^ (-(3 / 2) / 40 : ℝ) * x := by
  have homega : 2 * Real.pi * 12000 / 48000 = Real.pi / 2 := by ring
  unfold BiquadFilter.new BiquadFilter.update BiquadFilter.process
  dsimp only
  rw [homega, Real.cos_pi_div_two, Real.sin_pi_div_two]
  set a : ℝ := (10 : ℝ) ^ (-(3 / 2) / 40 : ℝ) with ha
  set r : ℝ := Real.sqrt ((a + 1 / a) * (1 / (7 / 10) - 1) + 2)
  have ha0 : 0 < a := eqA_pos
  have hr0 : 0 ≤ r := Real.sqrt_nonneg _
  have hden : (0 : ℝ) < (a + 1) - (a - 1) * 0 + 1 / 2 * r := by nlinarith
  have hb0 : a * ((a + 1) + (a - 1) * 0 + 1 / 2 * r) =
      a * ((a + 1) - (a - 1) * 0 + 1 / 2 * r) := by ring
  rw [hb0, mul_div_assoc, div_self (ne_of_gt hden)]
  ring

lemma limiter48_first_transparent (x : ℝ) (hx : |x| ≤ 1) :
    ((Limiter.new (-(1 / 10)) 48000).process x).2 = x := by
  have hT := limiter_threshold_ge_tenth 48000
  have henv0 : (Limiter.new (-(1 / 10)) 48000).envelope = 0 := rfl
  have hgain0 : (Limiter.new (-(1 / 10)) 48000).gain = 1 := rfl
  have hco : (Limiter.new (-(1 / 10)) 48000).attack_coeff =
      Real.exp (-(1 / 480) : ℝ) := by
    show Real.exp (-1 / (48000 * (1 / 100))) = Real.exp (-(1 / 480) : ℝ)
    norm_num
  have ha1 : Real.exp (-(1 / 480) : ℝ) ≤ 1 :=
    Real.exp_le_one_iff.mpr (by norm_num)
  have ha2 : 1 - Real.exp (-(1 / 480) : ℝ) ≤ 1 / 480 := by
    have := Real.add_one_le_exp (-(1 / 480) : ℝ)
    linarith
  have hguard0 : (0 : ℝ) < |x| + 1 / 10 ^ 10 := by positivity
  have henvbound : Real.exp (-(1 / 480) : ℝ) * ((0 : ℝ) - (|x| + 1 / 10 ^ 10)) +
      (|x| + 1 / 10 ^ 10) ≤ (Limiter.new (-(1 / 10)) 48000).threshold := by
    have habs0 : (0 : ℝ) ≤ |x| := abs_nonneg x
    nlinarith
  simp only [Limiter.process, henv0, hgain0, hco]
  rw [if_pos hguard0]
  rw [if_neg (not_lt.mpr henvbound)]
  have hsm : (Limiter.new (-(1 / 10)) 48000).smoothing_coeff *
      ((1 : ℝ) - 1) + 1 = 1 := by ring
  rw [hsm, mul_one]

lemma splitFrames_one_singleton {β : Type} (x : β) :
    splitFrames 1 [x] = ([[x]], []) := by
  simp [splitFrames, chunksGo]

/-- Output of the fresh one-channel bass processor at 48 kHz on the
single-sample block `[1]`: the high-passed sample (shelf at 0 dB and the
internal limiter are exactly transparent on it). -/
lemma bass48_first_out :
    ((BassProcessor.new 48000 1).process realShelfUpdate [1]).2 =
      [hpFirstFactor] := by
  unfold BassProcessor.process
  rw [update_filters_new]
  dsimp only
  have hch : (BassProcessor.new 48000 1).channels = 1 := rfl
  rw [hch, splitFrames_one_singleton]
  dsimp only
  show (((BassProcessor.new 48000 1).processFrames [[1]]).2 ++ [] : List ℝ) = _
  rw [List.append_nil]
  show ((((BassProcessor.new 48000 1).processFrame [1]).2 ++
    (((BassProcessor.new 48000 1).processFrame [1]).1.processFrames []).2 :
      List ℝ)) = _
  show ((((BassProcessor.new 48000 1).processFrame [1]).2 ++ [] : List ℝ)) = _
  rw [List.append_nil]
  unfold BassProcessor.processFrame
  dsimp only
  show (bassFrame
    [BiquadFilter.new FilterType.HighPass 48000 30 (707 / 1000) 0]
    [BiquadFilter.new FilterType.LowShelf 48000 100 (7 / 10) 0]
    [Limiter.new (-(1 / 10)) 48000] [0] [0] [1]).2.2.2.2.2 = _
  simp only [bassFrame]
  rw [hp48_first_out, mul_one, lowshelf48_zero_gain_out,
    limiter48_first_transparent hpFirstFactor
      (by rw [abs_of_pos hpFirstFactor_pos]; exact hpFirstFactor_le_one)]

/-- Output of the fresh one-channel `DspChain` at 48 kHz on `[1]`: the
high-shelf EQ scales the bass output by `10^(-1.5/40) < 1` and the chain
limiter passes it through. -/
lemma chain48_first_out :
    ((DspChain.new 48000 1).process realShelfUpdate [1]).2 =
      [(10 : ℝ) ^ (-(3 / 2) / 40 : ℝ) * hpFirstFactor] := by
  unfold DspChain.process
  dsimp only
  have hbass : ((DspChain.new 48000 1).bass.process realShelfUpdate [1]).2 =
      [hpFirstFactor] := bass48_first_out
  rw [hbass]
  have heq : ((DspChain.new 48000 1).hf_eq.process [hpFirstFactor]).2 =
      [(10 : ℝ) ^ (-(3 / 2) / 40 : ℝ) * hpFirstFactor] := by
    unfold HighFreqEQ.process biquadChunkMap
    dsimp only
    show ((biquadFrames
      [BiquadFilter.new FilterType.HighShelf 48000 12000 (7 / 10) (-(3 / 2))]
      (splitFrames 1 [hpFirstFactor]).1).2 ++
      (splitFrames 1 [hpFirstFactor]).2 : List ℝ) = _
    rw [splitFrames_one_singleton]
    simp only [biquadFrames, biquadFrame]
    rw [highshelf48_first_out]
    simp
  rw [heq]
  have hA01 : |(10 : ℝ) ^ (-(3 / 2) / 40 : ℝ) * hpFirstFactor| ≤ 1 := by
    rw [abs_of_pos (mul_pos eqA_pos hpFirstFactor_pos)]
    calc (10 : ℝ) ^ (-(3 / 2) / 40 : ℝ) * hpFirstFactor ≤ 1 * 1 := by
          apply mul_le_mul (le_of_lt eqA_lt_one) hpFirstFactor_le_one
            (le_of_lt hpFirstFactor_pos) (by norm_num)
      _ = 1 := by norm_num
  show ((limiterChunkMap (DspChain.new 48000 1).channels
    (DspChain.new 48000 1).limiter
    [(10 : ℝ) ^ (-(3 / 2) / 40 : ℝ) * hpFirstFactor]).2 : List ℝ) = _
  unfold limiterChunkMap
  dsimp only
  show ((limiterFrames [Limiter.new (-(1 / 10)) 48000]
    (splitFrames 1 [(10 : ℝ) ^ (-(3 / 2) / 40 : ℝ) * hpFirstFactor]).1).2 ++
    (splitFrames 1 [(10 : ℝ) ^ (-(3 / 2) / 40 : ℝ) * hpFirstFactor]).2 :
      List ℝ) = _
  rw [splitFrames_one_singleton]
  simp only [limiterFrames, limiterFrame]
  rw [limiter48_first_transparent _ hA01]
  simp

/-- A concrete worker state for the C1 counterexample: fresh one-channel
bass processor at 48 kHz, no resampler, empty ring of capacity 4. -/
noncomputable def demoWorkerC1 : WorkerState ℝ :=
  { resampler := none
    bass_processor := BassProcessor.new 48000 1
    ring := []
    cap := 4
    pending := []
    is_decoding := true
    clock := demoPlaying }

/-- C1 counterexample: the claim "every decoded block is processed by the
full DSP cascade (bass, then the 12 kHz high-shelf EQ, then the chain
limiter) before its samples are pushed" is false on the code: on the
block `[1]` the worker pushes the bass-only output, which differs from
the full `DspChain` output (the high-shelf EQ's −1.5 dB factor is
missing). -/
theorem worker_skips_chain_counterexample :
    (workerDecodeStep realShelfUpdate demoWorkerC1 (some [1])).ring ≠
      demoWorkerC1.ring ++
        ((DspChain.new 48000 1).process realShelfUpdate [1]).2 := by
  have hlhs : (workerDecodeStep realShelfUpdate demoWorkerC1
      (some [1])).ring = [hpFirstFactor] := by
    unfold workerDecodeStep push_slice
    dsimp only
    show (([] : List ℝ) ++
      ((BassProcessor.new 48000 1).process realShelfUpdate
        (resampleStage none [1]).2).2.take (4 - 0)) = _
    rw [show (resampleStage (none : Option (Resampler ℝ)) [1]).2 = [1] from rfl]
    rw [bass48_first_out]
    rfl
  rw [hlhs, chain48_first_out]
  show [hpFirstFactor] ≠ [] ++ [(10 : ℝ) ^ (-(3 / 2) / 40 : ℝ) * hpFirstFactor]
  rw [List.nil_append]
  intro hcontra
  have hval : hpFirstFactor = (10 : ℝ) ^ (-(3 / 2) / 40 : ℝ) * hpFirstFactor :=
    List.head_eq_of_cons_eq hcontra
  have hlt : (10 : ℝ) ^ (-(3 / 2) / 40 : ℝ) * hpFirstFactor <
      hpFirstFactor := by
    have := mul_lt_mul_of_pos_right eqA_lt_one hpFirstFactor_pos
    linarith [this]
  linarith [hval, hlt]

end ChainCounterexample

section ManagerDef

variable {γ : Type}

/-- The environment a backend construction or health check observes: the
current default output device (present or not, its identifier, its
default configuration) and whether configuration query, sample format and
stream construction succeed.  All of this belongs to the external `cpal`
library. -/
structure BackendEnv where
  hasDevice : Bool
  device_id : ℕ
  sample_rate : ℕ
  channels : ℕ
  configOk : Bool
  formatSupported : Bool
  streamOk : Bool

/-- `output/cpal_backend.rs`, `CpalBackend`: device identifier, the
shared health flag, and the consumer endpoint slot (the
`Arc<Mutex<Option<AudioBufferConsumer>>>` the callback borrows, possibly
surrendered on shutdown).  The consumer endpoint itself is an abstract
value of type `γ`. -/
structure CpalBackend (γ : Type) where
  device_id : ℕ
  is_healthy : Bool
  consumer : Option γ

/-- `CpalBackend::new(consumer, clock)`: no default device or a failing
configuration query return the consumer before the clock is touched; the
clock's rate/channels are stored as soon as a configuration is known;
an unsupported sample format or a stream-construction failure then return
the consumer with the clock already updated; on success the backend holds
the consumer. -/
def CpalBackend.new (env : BackendEnv) (consumer : γ) (clock : Clock) :
    (CpalBackend γ × Clock) ⊕ (γ × Clock) :=
  if env.hasDevice then
    if env.configOk then
      let clock1 := (clock.set_sample_rate env.sample_rate).set_channels
        env.channels
      if env.formatSupported then
        if env.streamOk then
          Sum.inl
            ({ device_id := env.device_id
               is_healthy := true
               consumer := some consumer }, clock1)
        else Sum.inr (consumer, clock1)
      else Sum.inr (consumer, clock1)
    else Sum.inr (consumer, clock)
  else Sum.inr (consumer, clock)

/-- `CpalBackend::shutdown`: pause the stream and surrender the consumer
endpoint. -/
def CpalBackend.shutdown (b : CpalBackend γ) : Option γ × CpalBackend γ :=
  (b.consumer, { b with consumer := none })

/-- `CpalBackend::is_healthy` (named `healthy` here because the health
flag keeps the source's field name): the flag must be up and, when a
default device exists and reports a name, the name must match. -/
def CpalBackend.healthy (b : CpalBackend γ) (env : BackendEnv) : Bool :=
  b.is_healthy && (!env.hasDevice || env.device_id == b.device_id)

/-- `output/output_manager.rs`, `OutputManager`: the backend slot, the
detached-consumer slot and the shared clock. -/
structure OutputManager (γ : Type) where
  backend : Option (CpalBackend γ)
  consumer : Option γ
  clock : Clock

/-- `OutputManager::try_reconnect`: take the stored consumer and attempt
a backend construction; on failure the recovered consumer is stored
back.  Returns the updated manager and whether it connected. -/
def OutputManager.try_reconnect (env : BackendEnv) (m : OutputManager γ) :
    OutputManager γ × Bool :=
  match m.consumer with
  | some c =>
    match CpalBackend.new env c m.clock with
    | Sum.inl (b, ck) =>
      ({ backend := some b, consumer := none, clock := ck }, true)
    | Sum.inr (c2, ck) =>
      ({ m with consumer := some c2, clock := ck }, false)
  | none => (m, false)

/-- `OutputManager::new(consumer, clock)`: store the consumer and attempt
an immediate reconnect, ignoring failure. -/
def OutputManager.new (env : BackendEnv) (consumer : γ) (clock : Clock) :
    OutputManager γ :=
  (OutputManager.try_reconnect env
    { backend := none, consumer := some consumer, clock := clock }).1

/-- `OutputManager::check_connection`: when the backend is missing or
unhealthy, take it, recover the consumer endpoint via `shutdown()`, and
`try_reconnect`; the conditional restart (`start()` when the clock was
`Playing`) only calls into the fresh backend's stream and moves no
endpoint. -/
def OutputManager.check_connection (env : BackendEnv) (m : OutputManager γ) :
    OutputManager γ :=
  let needs_reconnect :=
    match m.backend with
    | some b => !(b.healthy env)
    | none => true
  if needs_reconnect then
    let m1 :=
      match m.backend with
      | some b =>
        match b.shutdown.1 with
        | some c => { m with backend := none, consumer := some c }
        | none => { m with backend := none }
      | none => m
    (OutputManager.try_reconnect env m1).1
  else m

/-- The operations of the `AudioOutput` interface on an `OutputManager`
(`start` runs `check_connection` first and then only calls into the
backend's stream; `pause`/`stop` only call into the backend's stream;
`tick` is `check_connection`). -/
inductive ManagerOp
  | tryReconnect (env : BackendEnv)
  | checkConnection (env : BackendEnv)
  | tick (env : BackendEnv)
  | start (env : BackendEnv)
  | pause
  | stop

/-- Apply one `AudioOutput` operation to the manager state. -/
def runOp : ManagerOp → OutputManager γ → OutputManager γ
  | ManagerOp.tryReconnect env, m => (m.try_reconnect env).1
  | ManagerOp.checkConnection env, m => m.check_connection env
  | ManagerOp.tick env, m => m.check_connection env
  | ManagerOp.start env, m => m.check_connection env
  | ManagerOp.pause, m => m
  | ManagerOp.stop, m => m

/-- Apply a sequence of operations. -/
def runOps (m : OutputManager γ) : List ManagerOp → OutputManager γ
  | [] => m
  | op :: ops => runOps (runOp op m) ops

/-- Exactly one site holds the consumer endpoint `c0`: either the manager
slot (disconnected, backend slot empty) or a live backend (manager slot
empty). -/
def ConsumerInv (c0 : γ) (m : OutputManager γ) : Prop :=
  (m.backend = none ∧ m.consumer = some c0) ∨
  (∃ b, m.backend = some b ∧ b.consumer = some c0 ∧ m.consumer = none)

lemma cpal_new_inl_consumer (env : BackendEnv) (c : γ) (ck : Clock)
    (b : CpalBackend γ) (ck' : Clock)
    (h : CpalBackend.new env c ck = Sum.inl (b, ck')) :
    b.consumer = some c := by
  unfold CpalBackend.new at h
  split at h
  · split at h
    · split at h
      · split at h
        · rw [Sum.inl.injEq, Prod.mk.injEq] at h
          rw [← h.1]
        · exact absurd h (by simp)
      · exact absurd h (by simp)
    · exact absurd h (by simp)
  · exact absurd h (by simp)

lemma cpal_new_inr_consumer (env : BackendEnv) (c : γ) (ck : Clock)
    (c2 : γ) (ck' : Clock)
    (h : CpalBackend.new env c ck = Sum.inr (c2, ck')) :
    c2 = c := by
  unfold CpalBackend.new at h
  split at h
  · split at h
    · split at h
      · split at h
        · exact absurd h (by simp)
        · rw [Sum.inr.injEq, Prod.mk.injEq] at h
          rw [← h.1]
      · rw [Sum.inr.injEq, Prod.mk.injEq] at h
        rw [← h.1]
    · rw [Sum.inr.injEq, Prod.mk.injEq] at h
      rw [← h.1]
  · rw [Sum.inr.injEq, Prod.mk.injEq] at h
    rw [← h.1]

lemma try_reconnect_inv (env : BackendEnv) (c0 : γ) (m : OutputManager γ)
    (hinv : ConsumerInv c0 m) :
    ConsumerInv c0 (m.try_reconnect env).1 := by
  unfold OutputManager.try_reconnect
  rcases hinv with ⟨hb, hc⟩ | ⟨b, hb, hbc, hc⟩
  · rw [hc]
    dsimp only
    cases hnew : CpalBackend.new env c0 m.clock with
    | inl p =>
      obtain ⟨b', ck⟩ := p
      right
      exact ⟨b', rfl, cpal_new_inl_consumer env c0 m.clock b' ck hnew, rfl⟩
    | inr p =>
      obtain ⟨c2, ck⟩ := p
      left
      refine ⟨hb, ?_⟩
      rw [cpal_new_inr_consumer env c0 m.clock c2 ck hnew]
  · rw [hc]
    right
    exact ⟨b, hb, hbc, hc⟩

lemma check_connection_inv (env : BackendEnv) (c0 : γ) (m : OutputManager γ)
    (hinv : ConsumerInv c0 m) :
    ConsumerInv c0 (m.check_connection env) := by
  rcases hinv with ⟨hb, hc⟩ | ⟨b, hb, hbc, hc⟩
  · have hstep : m.check_connection env = (m.try_reconnect env).1 := by
      unfold OutputManager.check_connection
      rw [hb]
      rfl
    rw [hstep]
    exact try_reconnect_inv env c0 m (Or.inl ⟨hb, hc⟩)
  · by_cases hh : b.healthy env
    · have hstep : m.check_connection env = m := by
        unfold OutputManager.check_connection
        rw [hb]
        simp [hh]
      rw [hstep]
      exact Or.inr ⟨b, hb, hbc, hc⟩
    · have hh' : b.healthy env = false := by
        simpa using hh
      have hstep : m.check_connection env =
          (OutputManager.try_reconnect env
            { m with backend := none, consumer := some c0 }).1 := by
        unfold OutputManager.check_connection
        rw [hb]
        simp only [hh', Bool.not_false, if_true, ite_true]
        have hsd : b.shutdown.1 = some c0 := hbc
        rw [hsd]
      rw [hstep]
      exact try_reconnect_inv env c0
        { m with backend := none, consumer := some c0 }
        (Or.inl ⟨rfl, rfl⟩)

lemma runOp_inv (op : ManagerOp) (c0 : γ) (m : OutputManager γ)
    (hinv : ConsumerInv c0 m) : ConsumerInv c0 (runOp op m) := by
  cases op with
  | tryReconnect env => exact try_reconnect_inv env c0 m hinv
  | checkConnection env => exact check_connection_inv env c0 m hinv
  | tick env => exact check_connection_inv env c0 m hinv
  | start env => exact check_connection_inv env c0 m hinv
  | pause => exact hinv
  | stop => exact hinv

lemma runOps_inv (ops : List ManagerOp) :
    ∀ (c0 : γ) (m : OutputManager γ), ConsumerInv c0 m →
      ConsumerInv c0 (runOps m ops) := by
  induction ops with
  | nil => intro c0 m hinv; exact hinv
  | cons op ops ih =>
    intro c0 m hinv
    exact ih c0 (runOp op m) (runOp_inv op c0 m hinv)

/-- C7: starting from `OutputManager::new(consumer, clock)` and applying
any sequence of manager operations (`try_reconnect`, `check_connection`,
`tick`, `start`, `pause`, `stop`) under arbitrary device environments,
exactly one of the manager's two slots is occupied: either a live backend
that holds the consumer endpoint, or the detached consumer endpoint
itself — the endpoint is never duplicated and never lost. -/
theorem manager_consumer_exactly_one_slot (c0 : γ) (clock : Clock)
    (env0 : BackendEnv) (ops : List ManagerOp) :
    ConsumerInv c0 (runOps (OutputManager.new env0 c0 clock) ops) := by
  apply runOps_inv
  unfold OutputManager.new
  exact try_reconnect_inv env0 c0
    { backend := none, consumer := some c0, clock := clock }
    (Or.inl ⟨rfl, rfl⟩)

end ManagerDef

end Mewo
